import Mathlib

/-!
# Objectively: class runtime, reference counting, Hello and URLSessionTask

A shallow embedding of the parts of the Objectively sources that the
verified properties talk about:

* `Class.h`: the `Class` descriptor and the dispatch forms `classof`,
  `interfaceof`, `$`, `super`;
* `Examples/Hello.c`: the `Hello` class;
* `URLSessionTask.c`: the `URLSessionTask` class.

Function pointers are modelled by their identity (`Fn`): the translation unit
that defines the static function, and its name.  A dispatch table is a map
from slots to function pointers.  A program state (`Runtime`) holds the live
instances, the live buffers, a bump allocator and the trace of the calls made
into the runtime and the C library.

The bodies of `_alloc`, `_cast`, `retain`, `release` and of `Object`'s own
methods live in `Class.c` and `Object.c`; those files, like `Thread.c`,
`String.c` and `Dictionary.c`, are only declared or called in the sources, so
their embeddings are written from the specification and say so in their doc
comments.
-/

namespace Objectively

/-! ## Pointers and function pointers -/

/-- An address (`ident` in `Class.h`). -/
abbrev ident := Nat

/-- The null pointer. -/
def NULL : ident := 0

/-- A function pointer: the static function `fn` defined in translation unit `unit`. -/
structure Fn where
  unit : String
  fn : String
deriving DecidableEq, Repr

/-! ## Interfaces (dispatch tables) -/

/-- The slots of `ObjectInterface`.  The declaration is in `Object.h`, which is
not among the sources; the slots are the ones `object.h` declares (`copy`,
`dealloc`, `isEqual`, `isKindOfClass`, `init`) and `hash`, which the String test
dispatches through `Object`. -/
inductive ObjectSlot where
  | copy | dealloc | hash | init | isEqual | isKindOfClass
deriving DecidableEq, Repr

/-- The slots `struct HelloInterface` adds after `objectInterface`. -/
inductive HelloSlot where
  | helloWithGreeting | initWithGreeting | sayHello
deriving DecidableEq, Repr

/-- The slots of `URLSessionTaskInterface` that `URLSessionTask.c` assigns. -/
inductive URLSessionTaskSlot where
  | cancel | initWithRequestInSession | resume | setup | teardown
deriving DecidableEq, Repr

/-- A slot of a dispatch table: one of the inherited `ObjectInterface` part, or
one of the part a subclass interface appends. -/
inductive Slot where
  | object (m : ObjectSlot)
  | hello (m : HelloSlot)
  | task (m : URLSessionTaskSlot)
deriving DecidableEq, Repr

/-- A dispatch table; `none` is a null function pointer. -/
abbrev Interface := Slot → Option Fn

/-- A zero-filled table. -/
def Interface.zeroed : Interface := fun _ => none

/-- The assignment `interface->m = f`. -/
def Interface.set (i : Interface) (m : Slot) (f : Fn) : Interface :=
  fun k => if k = m then some f else i k

/-! ## Class descriptors -/

/-- The `Class` descriptor of `Class.h`: `name`, the optional class initializer
(a function pointer) and `superclass` (absent for the root).  The size and
offset members describe memory layout and are not modelled. -/
inductive Class where
  | root (name : String) (initializer : Option Fn)
  | subclass (name : String) (initializer : Option Fn) (superclass : Class)
deriving DecidableEq, Repr

/-- The member `name`. -/
def Class.name : Class → String
  | .root n _ => n
  | .subclass n _ _ => n

/-- The member holding the class initializer. -/
def Class.initializer : Class → Option Fn
  | .root _ h => h
  | .subclass _ h _ => h

/-- The member `superclass`; `none` is `NULL`. -/
def Class.superclass : Class → Option Class
  | .root _ _ => none
  | .subclass _ _ s => some s

/-- The superclass chain of a class, the class itself first, the root last. -/
def Class.chain : Class → List Class
  | .root n h => [.root n h]
  | .subclass n h s => .subclass n h s :: s.chain

/-- The root class (`_Object`; `URLSessionTask.c` spells it `__Object`). -/
def _Object : Class := .root "Object" (some ⟨"Object", "initialize"⟩)

/-- The descriptor `Class _Hello` of `Hello.c`. -/
def _Hello : Class := .subclass "Hello" (some ⟨"Hello", "initialize"⟩) _Object

/-- The descriptor `Class __URLSessionTask` of `URLSessionTask.c`. -/
def __URLSessionTask : Class :=
  .subclass "URLSessionTask" (some ⟨"URLSessionTask", "initialize"⟩) _Object

/-- Modelled from the spec: the descriptor of `Thread`, which `URLSessionTask.c`
allocates (`Thread.c` is not among the sources).  Every class extends the root;
the class is taken to extend `Object` directly and to assign no slot that
`Object` declares. -/
def _Thread : Class := .subclass "Thread" none _Object

/-- Modelled from the spec: the descriptor of `String`, which the test and
`URLSessionTask.c` allocate (`String.c` is not among the sources).  Every class
extends the root; the class is taken to extend `Object` directly and to assign no
slot that `Object` declares. -/
def __String : Class := .subclass "String" none _Object

/-! ## Class initializers -/

/-- Modelled from the spec: the class initializer of `Object` (`Object.c` is not
among the sources).  The root contract is that every class's table extends the
base set, so `Object` stores its own implementation in each slot of
`ObjectInterface`. -/
def Object.initialize (interface : Interface) : Interface :=
  let object := interface
  let object := object.set (.object .copy) ⟨"Object", "copy"⟩
  let object := object.set (.object .dealloc) ⟨"Object", "dealloc"⟩
  let object := object.set (.object .hash) ⟨"Object", "hash"⟩
  let object := object.set (.object .init) ⟨"Object", "init"⟩
  let object := object.set (.object .isEqual) ⟨"Object", "isEqual"⟩
  let object := object.set (.object .isKindOfClass) ⟨"Object", "isKindOfClass"⟩
  object

/-- The function `initialize` of `Hello.c`, on the table `clazz->def->interface`. -/
def Hello.initialize (interface : Interface) : Interface :=
  let hello := interface
  let hello := hello.set (.hello .helloWithGreeting) ⟨"Hello", "helloWithGreeting"⟩
  let hello := hello.set (.hello .initWithGreeting) ⟨"Hello", "initWithGreeting"⟩
  let hello := hello.set (.hello .sayHello) ⟨"Hello", "sayHello"⟩
  hello

/-- The function `initialize` of `URLSessionTask.c`, on the table `clazz->interface`. -/
def URLSessionTask.initialize (interface : Interface) : Interface :=
  let object := interface
  let object := object.set (.object .copy) ⟨"URLSessionTask", "copy"⟩
  let object := object.set (.object .dealloc) ⟨"URLSessionTask", "dealloc"⟩
  let task := object
  let task := task.set (.task .cancel) ⟨"URLSessionTask", "cancel"⟩
  let task := task.set (.task .initWithRequestInSession)
    ⟨"URLSessionTask", "initWithRequestInSession"⟩
  let task := task.set (.task .resume) ⟨"URLSessionTask", "resume"⟩
  let task := task.set (.task .setup) ⟨"URLSessionTask", "setup"⟩
  let task := task.set (.task .teardown) ⟨"URLSessionTask", "teardown"⟩
  task

/-- The call `clazz->initialize(clazz)` through the descriptor's function pointer:
the three initializers above are linked by identity; a descriptor without an
initializer (it is optional) leaves the table as it is. -/
def callInitialize (h : Option Fn) (interface : Interface) : Interface :=
  if h = some ⟨"Object", "initialize"⟩ then Object.initialize interface
  else if h = some ⟨"Hello", "initialize"⟩ then Hello.initialize interface
  else if h = some ⟨"URLSessionTask", "initialize"⟩ then URLSessionTask.initialize interface
  else interface

/-- Modelled from the spec: `_initialize` (`Class.c` is not among the sources).
The table of a class is the superclass's table, copied, on which the class's own
initializer then overwrites slots; the root starts from a zero-filled table.
The one-time, thread-safe protocol around it is not modelled: the result is the
table a class has once it is ready. -/
def _initialize : Class → Interface
  | .root _ h => callInitialize h Interface.zeroed
  | .subclass _ h s => callInitialize h ( _initialize s)

/-- The form `interfaceof(type, clazz)`: the table of an initialized class. -/
def interfaceof (clazz : Class) : Interface := _initialize clazz

/-! ## Instances and the runtime state -/

/-- The ways an execution stops without a result. -/
inductive Fault where
  /-- `cast` of an instance to a class outside its ancestry. -/
  | typeMismatch
  /-- A `release` with no matching retain or allocation. -/
  | overRelease
  /-- A dereference of `NULL` or of a block that is not live. -/
  | badAccess
  /-- A call through a null or unknown function pointer. -/
  | badCall
  /-- A failed `assert`. -/
  | assertion
  /-- The recursion bound of the model was reached. -/
  | outOfFuel
deriving DecidableEq, Repr

/-- The enumeration `URLSessionTaskState`.  Its declaration is in
`URLSessionTask.h`, which is not among the sources: the three enumerators that
`URLSessionTask.c` names are constructors, any further one is `other`. -/
inductive URLSessionTaskState where
  | TASK_RUNNING | TASK_SUSPENDED | TASK_CANCELING
  | other (code : Nat)
deriving DecidableEq, Repr

/-- The member `locals` of `struct URLSessionTask`, as `URLSessionTask.c` uses it. -/
structure Locals where
  thread : ident
  handle : ident
  httpHeaders : ident
deriving DecidableEq, Repr

/-- The members of `struct URLSessionTask` that `URLSessionTask.c` uses (the
declaration is in `URLSessionTask.h`, which is not among the sources). -/
structure URLSessionTask where
  error : ident
  request : ident
  session : ident
  completion : Option Fn
  state : URLSessionTaskState
  locals : Locals
deriving DecidableEq, Repr

/-- The HTTP methods.  The enumeration is declared in `URLRequest.h`, which is not
among the sources: the four enumerators that `setup` names are constructors, any
further one is `other`. -/
inductive HTTPMethod where
  | HTTP_POST | HTTP_PUT | HTTP_DELETE | HTTP_HEAD
  | other (code : Nat)
deriving DecidableEq, Repr

/-- The members of `struct URLRequest` that `URLSessionTask.c` reads (the
declaration is in `URLRequest.h`, which is not among the sources). -/
structure URLRequest where
  httpBody : ident
  httpHeaders : ident
  httpMethod : HTTPMethod
  url : ident
deriving DecidableEq, Repr

/-- The visible fields of an instance, after the `Object` header.  For the classes
whose headers are not among the sources, the members are the ones
`URLSessionTask.c` reads. -/
inductive Fields where
  /-- A zero-filled block no field of which has been written. -/
  | zeroed
  /-- The member `greeting` of `struct Hello`; `none` is `NULL`. -/
  | hello (greeting : Option String)
  /-- The members of `struct URLSessionTask`. -/
  | task (t : URLSessionTask)
  /-- The `function` and `data` a `Thread` is initialized with. -/
  | thread (function : Option Fn) (data : ident)
  /-- The member `chars` of a `String`. -/
  | string (chars : String)
  /-- The members `bytes` and `length` of a `Data`. -/
  | data (bytes : ident) (length : Nat)
  /-- The entries of a `Dictionary`, each an object and its key. -/
  | dictionary (entries : List (ident × ident))
  /-- The member `urlString` of a `URL`. -/
  | url (urlString : ident)
  /-- The members of a `URLRequest`. -/
  | request (r : URLRequest)
  /-- The member `httpHeaders` of a `URLSessionConfiguration`. -/
  | configuration (httpHeaders : ident)
  /-- The member `configuration` of a `URLSession`. -/
  | session (configuration : ident)
deriving DecidableEq, Repr

/-- An instance: the header every instance starts with (its `Class` and its
reference count) and the visible fields. -/
structure Instance where
  clazz : Class
  referenceCount : Nat
  fields : Fields
deriving DecidableEq, Repr

/-- What the runtime and the C library were asked to do, in order. -/
inductive Event where
  | alloc (obj : ident) (clazz : Class)
  | calloc (p : ident) (size : Nat)
  | free (p : ident)
  | retain (obj : ident)
  | release (obj : ident)
  /-- The method `dealloc` defined in translation unit `unit` was entered on `self`. -/
  | dealloc (unit : String) (self : ident)
  /-- The method `start` was invoked on a `Thread`. -/
  | start (thread : ident)
  | printf (text : String)
  | curl_easy_init (handle : ident)
  | curl_easy_setopt (handle : ident) (option : String)
  | curl_easy_perform (handle : ident)
  | curl_easy_cleanup (handle : ident)
  | curl_slist_append (list : ident) (chars : String)
  | curl_slist_free_all (list : ident)
  /-- The completion callback of a task was called. -/
  | completion (f : Fn) (task : ident) (success : Bool)
deriving DecidableEq, Repr

/-- The state of a running program: the live instances, the live `calloc`
buffers with their sizes, the allocator's next address and its bound, and the
trace of events, oldest first. -/
structure Runtime where
  heap : ident → Option Instance
  buffers : ident → Option Nat
  brk : ident
  limit : ident
  trace : List Event

/-- Append an event to the trace. -/
def Runtime.log (s : Runtime) (e : Event) : Runtime :=
  { s with trace := s.trace ++ [e] }

/-- Store an instance at an address. -/
def Runtime.store (s : Runtime) (obj : ident) (i : Instance) : Runtime :=
  { s with heap := fun a => if a = obj then some i else s.heap a }

/-- Remove the instance at an address. -/
def Runtime.erase (s : Runtime) (obj : ident) : Runtime :=
  { s with heap := fun a => if a = obj then none else s.heap a }

/-- The reference count of a live instance. -/
def Runtime.referenceCount (s : Runtime) (obj : ident) : Option Nat :=
  (s.heap obj).map (·.referenceCount)

/-- The form `classof(obj)`: the `clazz` member of the header. -/
def classof (s : Runtime) (obj : ident) : Option Class :=
  (s.heap obj).map (·.clazz)

/-- The C library's `calloc(size, 1)`: a fresh zero-filled buffer, or `NULL`
when the allocator's bound is reached. -/
def calloc (s : Runtime) (size : Nat) : ident × Runtime :=
  if s.brk < s.limit then
    (s.brk, { s with
      buffers := fun a => if a = s.brk then some size else s.buffers a
      brk := s.brk + 1
      trace := s.trace ++ [.calloc s.brk size] })
  else (NULL, s)

/-- The C library's `free` on a buffer. -/
def free (s : Runtime) (p : ident) : Runtime :=
  { s with
    buffers := fun a => if a = p then none else s.buffers a
    trace := s.trace ++ [.free p] }

/-- Modelled from the spec: `_alloc` (`Class.c` is not among the sources).  It
allocates a zero-filled block, sets the reference count to 1 and stamps the block
with the class; allocation failure is a null result. -/
def _alloc (s : Runtime) (clazz : Class) : ident × Runtime :=
  if s.brk < s.limit then
    (s.brk, { s with
      heap := fun a => if a = s.brk then some ⟨clazz, 1, .zeroed⟩ else s.heap a
      brk := s.brk + 1
      trace := s.trace ++ [.alloc s.brk clazz] })
  else (NULL, s)

/-- Modelled from the spec: `retain` (`Class.c` is not among the sources).  It
increments the reference count and returns the same instance. -/
def retain (s : Runtime) (obj : ident) : Except Fault (ident × Runtime) :=
  match s.heap obj with
  | none => .error .badAccess
  | some i =>
    .ok (obj, (s.store obj { i with referenceCount := i.referenceCount + 1 }).log (.retain obj))

/-! ## Type queries -/

/-- Modelled from the spec: the ancestry walk of the type query engine (`Class.c`
and `Object.c` are not among the sources).  It compares class identity up the
superclass chain until a match is found or the chain is exhausted at the root. -/
def Class.isKindOf : Class → Class → Bool
  | .root n h, target => decide (Class.root n h = target)
  | .subclass n h s, target => decide (Class.subclass n h s = target) || s.isKindOf target

/-- Modelled from the spec: the method `isKindOfClass` that `object.h` declares,
the walk started at the class of the instance. -/
def isKindOfClass (s : Runtime) (self : ident) (clazz : Class) : Except Fault Bool :=
  match s.heap self with
  | none => .error .badAccess
  | some i => .ok (i.clazz.isKindOf clazz)

/-- Modelled from the spec: `_cast` (`Class.c` is not among the sources).  The
same walk; on success the instance itself is returned, on failure the
type-mismatch condition is signalled. -/
def _cast (s : Runtime) (clazz : Class) (obj : ident) : Except Fault ident :=
  match s.heap obj with
  | none => .error .badAccess
  | some i => if i.clazz.isKindOf clazz then .ok obj else .error .typeMismatch

/-- The form `assert(c)` of `assert.h`. -/
def assert (c : Prop) [Decidable c] : Except Fault Unit :=
  if c then .ok () else .error .assertion

/-! ## Dispatch -/

/-- The lookup of the form `$(obj, method, ...)`: `_obj->interface->method`, the
slot of the table the instance was given at allocation, the one of its class. -/
def dispatch (s : Runtime) (obj : ident) (method : Slot) : Except Fault Fn :=
  match s.heap obj with
  | none => .error .badAccess
  | some i =>
    match interfaceof i.clazz method with
    | none => .error .badCall
    | some f => .ok f

/-- The form `super(type, obj, method, ...)` written in the implementation of the
class `_Class` (`URLSessionTask.c` spells the name `__Class`):
`interfaceof(type, _Class.superclass)->method(cast(type, obj), ...)`.
The result is the function pointer read from the slot and the cast instance it
is called on. -/
def super (s : Runtime) (_Class type : Class) (obj : ident) (method : Slot) :
    Except Fault (Fn × ident) :=
  match _Class.superclass with
  | none => .error .badAccess
  | some superclass =>
    match interfaceof superclass method with
    | none => .error .badCall
    | some f =>
      match _cast s type obj with
      | .error e => .error e
      | .ok obj => .ok (f, obj)

/-! ## Object -/

/-- The behaviour of `Object`'s `init`.  `Object.c` is not among the sources, so
the function is a parameter: it returns the initialized instance, or `NULL`. -/
abbrev ObjectInit := Runtime → ident → ident × Runtime

/-- A call through an `init` function pointer: `Object`'s is the only
implementation of the slot. -/
def callInit (objectInit : ObjectInit) (f : Fn) (s : Runtime) (self : ident) :
    Except Fault (ident × Runtime) :=
  if f = ⟨"Object", "init"⟩ then .ok (objectInit s self) else .error .badCall

/-- Modelled from the spec: `Object`'s `init` (`Object.c` is not among the sources),
as `object.h` documents it: it returns the initialized instance, `self`. -/
def Object.init : ObjectInit := fun s self => (self, s)

/-- Modelled from the spec: `Object`'s `dealloc` (`Object.c` is not among the
sources).  The root has no state of its own to tear down; the block is freed
after the destructor chain has run.  Entering the function is recorded in the
trace. -/
def Object.dealloc (s : Runtime) (self : ident) : Except Fault Runtime :=
  .ok (s.log (.dealloc "Object" self))

/-! ## Hello -/

/-- The assignment `self->greeting = g`. -/
def Runtime.setGreeting (s : Runtime) (self : ident) (g : Option String) :
    Except Fault Runtime :=
  match s.heap self with
  | some ⟨c, n, .zeroed⟩ => .ok (s.store self ⟨c, n, .hello g⟩)
  | some ⟨c, n, .hello _⟩ => .ok (s.store self ⟨c, n, .hello g⟩)
  | _ => .error .badAccess

/-- The read `self->greeting`. -/
def Runtime.greeting (s : Runtime) (self : ident) : Except Fault (Option String) :=
  match s.heap self with
  | some ⟨_, _, .zeroed⟩ => .ok none
  | some ⟨_, _, .hello g⟩ => .ok g
  | _ => .error .badAccess

/-- The function `initWithGreeting` of `Hello.c`. -/
def Hello.initWithGreeting (objectInit : ObjectInit) (s : Runtime) (self : ident)
    (greeting : Option String) : Except Fault (ident × Runtime) := do
  let (f, obj) ← super s _Hello _Object self (.object .init)
  let (self, s) ← callInit objectInit f s obj
  if self ≠ NULL then
    let s ← s.setGreeting self (some (greeting.getD "Hello World!"))
    pure (self, s)
  else
    pure (self, s)

/-- The function `helloWithGreeting` of `Hello.c`:
`$(alloc(Hello), initWithGreeting, greeting)`. -/
def Hello.helloWithGreeting (objectInit : ObjectInit) (s : Runtime)
    (greeting : Option String) : Except Fault (ident × Runtime) := do
  let (obj, s) := _alloc s _Hello
  let f ← dispatch s obj (.hello .initWithGreeting)
  if f = ⟨"Hello", "initWithGreeting"⟩ then
    Hello.initWithGreeting objectInit s obj greeting
  else
    .error .badCall

/-- The function `sayHello` of `Hello.c`: `printf("%s\n", self->greeting)`.
Printing through a null `greeting` has no defined result. -/
def Hello.sayHello (s : Runtime) (self : ident) : Except Fault Runtime := do
  let greeting ← s.greeting self
  match greeting with
  | none => .error .badAccess
  | some g => pure (s.log (.printf (g ++ "\n")))

/-! ## URLSessionTask -/

/-- The constant `CURL_ERROR_SIZE` of `curl/curl.h`. -/
def CURL_ERROR_SIZE : Nat := 256

/-- The members of a zero-filled `struct URLSessionTask`.  Which enumerator has
the value 0 is declared outside the sources, so the zero `state` is rendered as
`other 0`; the initializer overwrites `state` before anything reads it. -/
def URLSessionTask.zeroed : URLSessionTask :=
  { error := NULL, request := NULL, session := NULL, completion := none,
    state := .other 0, locals := { thread := NULL, handle := NULL, httpHeaders := NULL } }

/-- The read of the members of the task at `self`. -/
def Runtime.task (s : Runtime) (self : ident) : Except Fault URLSessionTask :=
  match s.heap self with
  | some ⟨_, _, .zeroed⟩ => .ok URLSessionTask.zeroed
  | some ⟨_, _, .task t⟩ => .ok t
  | _ => .error .badAccess

/-- An assignment to members of the task at `self`. -/
def Runtime.setTask (s : Runtime) (self : ident) (f : URLSessionTask → URLSessionTask) :
    Except Fault Runtime :=
  match s.heap self with
  | some ⟨c, n, .zeroed⟩ => .ok (s.store self ⟨c, n, .task (f URLSessionTask.zeroed)⟩)
  | some ⟨c, n, .task t⟩ => .ok (s.store self ⟨c, n, .task (f t)⟩)
  | _ => .error .badAccess

/-- Modelled from the spec: `Thread`'s `initWithFunction`, called as
`$(thread, initWithFunction, function, data)` (`Thread.c` is not among the
sources).  By the constructor contract a successful initializer returns the
instance it was given; this one is taken to succeed and to record its two
arguments.  A null receiver cannot be dispatched on. -/
def Thread.initWithFunction (s : Runtime) (self : ident) (function : Fn) (data : ident) :
    Except Fault (ident × Runtime) :=
  match s.heap self with
  | none => .error .badAccess
  | some i => .ok (self, s.store self { i with fields := .thread (some function) data })

/-- Modelled from the spec: `Thread`'s `start`, called as `$(thread, start)`
(`Thread.c` is not among the sources).  The spec leaves threads to the classes
that use them; the call is recorded in the trace and changes no instance.  A
null receiver cannot be dispatched on. -/
def Thread.start (s : Runtime) (self : ident) : Except Fault Runtime :=
  match s.heap self with
  | none => .error .badAccess
  | some _ => .ok (s.log (.start self))

/-- The function `copy` of `URLSessionTask.c`. -/
def URLSessionTask.copy (s : Runtime) (_self : ident) : Except Fault (ident × Runtime) :=
  .ok (NULL, s)

/-- The function `dealloc` of `URLSessionTask.c`.  The parameter `release` is the
runtime's `release`, defined below.  Entering the function is recorded in the
trace. -/
def URLSessionTask.dealloc (release : Runtime → ident → Except Fault Runtime)
    (s : Runtime) (self : ident) : Except Fault Runtime := do
  let s := s.log (.dealloc "URLSessionTask" self)
  let this ← s.task self
  let s := (if this.error ≠ NULL then free s this.error else s)
  let this ← s.task self
  let s ← release s this.locals.thread
  let this ← s.task self
  let s ← release s this.request
  let this ← s.task self
  let s ← release s this.session
  let (f, obj) ← super s __URLSessionTask _Object self (.object .dealloc)
  if f = ⟨"Object", "dealloc"⟩ then Object.dealloc s obj else .error .badCall

/-- The function `cancel` of `URLSessionTask.c`. -/
def URLSessionTask.cancel (s : Runtime) (self : ident) : Except Fault Runtime := do
  let this ← s.task self
  if this.state = .TASK_RUNNING ∨ this.state = .TASK_SUSPENDED then
    s.setTask self (fun t => { t with state := .TASK_CANCELING })
  else
    pure s

/-- The function `initWithRequestInSession` of `URLSessionTask.c`. -/
def URLSessionTask.initWithRequestInSession (objectInit : ObjectInit) (s : Runtime)
    (self request session : ident) (completion : Option Fn) :
    Except Fault (ident × Runtime) := do
  assert (request ≠ NULL)
  assert (session ≠ NULL)
  let (f, obj) ← super s __URLSessionTask _Object self (.object .init)
  let (self, s) ← callInit objectInit f s obj
  if self ≠ NULL then
    let (thread, s) := _alloc s _Thread
    let (thread, s) ← Thread.initWithFunction s thread ⟨"URLSessionTask", "run"⟩ self
    let s ← s.setTask self (fun t => { t with locals := { t.locals with thread := thread } })
    let (error, s) := calloc s CURL_ERROR_SIZE
    let s ← s.setTask self (fun t => { t with error := error })
    assert (error ≠ NULL)
    let s ← s.setTask self (fun t => { t with request := request })
    let (_, s) ← retain s request
    let s ← s.setTask self (fun t => { t with session := session })
    let (_, s) ← retain s session
    let s ← s.setTask self (fun t => { t with completion := completion })
    let s ← s.setTask self (fun t => { t with state := .TASK_SUSPENDED })
    pure (self, s)
  else
    pure (self, s)

/-- The function `curl_easy_init` of libcurl: a fresh handle, or `NULL`. -/
def curl_easy_init (s : Runtime) : ident × Runtime :=
  if s.brk < s.limit then
    (s.brk, { s with brk := s.brk + 1, trace := s.trace ++ [.curl_easy_init s.brk] })
  else (NULL, s)

/-- The function `curl_slist_append` of libcurl: the list it was given, a fresh one
when that was `NULL`, or `NULL` when no list can be allocated. -/
def curl_slist_append (s : Runtime) (list : ident) (chars : String) : ident × Runtime :=
  if list ≠ NULL then (list, s.log (.curl_slist_append list chars))
  else if s.brk < s.limit then
    (s.brk, { s with brk := s.brk + 1, trace := s.trace ++ [.curl_slist_append s.brk chars] })
  else (NULL, s)

/-- The read `string->chars`. -/
def Runtime.chars (s : Runtime) (p : ident) : Except Fault String :=
  match s.heap p with
  | some ⟨_, _, .string chars⟩ => .ok chars
  | _ => .error .badAccess

/-- The read of the members of the `URLRequest` at `p`. -/
def Runtime.request (s : Runtime) (p : ident) : Except Fault URLRequest :=
  match s.heap p with
  | some ⟨_, _, .request r⟩ => .ok r
  | _ => .error .badAccess

/-- The read `session->configuration->httpHeaders`. -/
def Runtime.sessionHeaders (s : Runtime) (session : ident) : Except Fault ident :=
  match s.heap session with
  | some ⟨_, _, .session configuration⟩ =>
    match s.heap configuration with
    | some ⟨_, _, .configuration httpHeaders⟩ => .ok httpHeaders
    | _ => .error .badAccess
  | _ => .error .badAccess

/-- The read `url->urlString->chars`. -/
def Runtime.urlChars (s : Runtime) (url : ident) : Except Fault String :=
  match s.heap url with
  | some ⟨_, _, .url urlString⟩ => s.chars urlString
  | _ => .error .badAccess

/-- Modelled from the spec: `String`'s `initWithFormat`, called as
`$(string, initWithFormat, fmt, ...)` (`String.c` is not among the sources).  By
the constructor contract a successful initializer returns the instance it was
given; this one is taken to succeed and to store the formatted characters.  A
null receiver cannot be dispatched on. -/
def String.initWithFormat (s : Runtime) (self : ident) (formatted : String) :
    Except Fault (ident × Runtime) :=
  match s.heap self with
  | none => .error .badAccess
  | some i => .ok (self, s.store self { i with fields := .string formatted })

/-- The function `httpHeaders_enumerator` of `URLSessionTask.c`.  The argument
`headers` is the list `data` points to; the result carries the list stored back
through `data`.  The parameter `release` is the runtime's `release`. -/
def URLSessionTask.httpHeaders_enumerator (release : Runtime → ident → Except Fault Runtime)
    (s : Runtime) (obj key headers : ident) : Except Fault (Bool × ident × Runtime) := do
  let keyChars ← s.chars key
  let objChars ← s.chars obj
  let (header, s) := _alloc s __String
  let (header, s) ← String.initWithFormat s header (keyChars ++ ": " ++ objChars)
  let headerChars ← s.chars header
  let (headers, s) := curl_slist_append s headers headerChars
  let s ← release s header
  pure (false, headers, s)

/-- Modelled from the spec: `Dictionary`'s `enumerateObjectsAndKeys`, called as
`$(dictionary, enumerateObjectsAndKeys, enumerator, data)` (`Dictionary.c` is not
among the sources).  The spec leaves collections to their own classes; the
method is taken to call the enumerator on every entry, in order, passing `data`
along. -/
def Dictionary.enumerateObjectsAndKeys
    (enumerator : Runtime → ident → ident → ident → Except Fault (Bool × ident × Runtime))
    (s : Runtime) (self : ident) (data : ident) : Except Fault (ident × Runtime) :=
  match s.heap self with
  | some ⟨_, _, .dictionary entries⟩ =>
    entries.foldlM
      (fun (acc : ident × Runtime) (entry : ident × ident) => do
        let (_, data, s) ← enumerator acc.2 entry.1 entry.2 acc.1
        pure (data, s))
      (data, s)
  | _ => .error .badAccess

/-- The function `setup` of `URLSessionTask.c`.  The calls into libcurl are recorded
in the trace.  The parameter `release` is the runtime's `release`. -/
def URLSessionTask.setup (release : Runtime → ident → Except Fault Runtime)
    (s : Runtime) (self : ident) : Except Fault Runtime := do
  let (handle, s) := curl_easy_init s
  let s ← s.setTask self (fun t => { t with locals := { t.locals with handle := handle } })
  assert (handle ≠ NULL)
  let this ← s.task self
  let s := s.log (.curl_easy_setopt this.locals.handle "CURLOPT_ERRORBUFFER")
  let s := s.log (.curl_easy_setopt this.locals.handle "CURLOPT_FOLLOWLOCATION")
  let request ← s.request this.request
  let body := request.httpBody
  let s ← (if body ≠ NULL then
      match s.heap body with
      | some ⟨_, _, .data _ _⟩ =>
        .ok ((s.log (.curl_easy_setopt this.locals.handle "CURLOPT_POSTFIELDS")).log
          (.curl_easy_setopt this.locals.handle "CURLOPT_POSTFIELDSIZE"))
      | _ => .error .badAccess
    else .ok s)
  let httpHeaders := NULL
  let headers ← s.sessionHeaders this.session
  let (httpHeaders, s) ← (if headers ≠ NULL then
      Dictionary.enumerateObjectsAndKeys (URLSessionTask.httpHeaders_enumerator release)
        s headers httpHeaders
    else .ok (httpHeaders, s))
  let this ← s.task self
  let request ← s.request this.request
  let headers := request.httpHeaders
  let (httpHeaders, s) ← (if headers ≠ NULL then
      Dictionary.enumerateObjectsAndKeys (URLSessionTask.httpHeaders_enumerator release)
        s headers httpHeaders
    else .ok (httpHeaders, s))
  let this ← s.task self
  let s := s.log (.curl_easy_setopt this.locals.handle "CURLOPT_HTTPHEADER")
  let s ← s.setTask self
    (fun t => { t with locals := { t.locals with httpHeaders := httpHeaders } })
  let this ← s.task self
  let request ← s.request this.request
  let s := match request.httpMethod with
    | .HTTP_POST => s.log (.curl_easy_setopt this.locals.handle "CURLOPT_POST")
    | .HTTP_PUT => s.log (.curl_easy_setopt this.locals.handle "CURLOPT_PUT")
    | .HTTP_DELETE => s.log (.curl_easy_setopt this.locals.handle "CURLOPT_CUSTOMREQUEST")
    | .HTTP_HEAD => s.log (.curl_easy_setopt this.locals.handle "CURLOPT_NOBODY")
    | .other _ => s
  let _ ← s.urlChars request.url
  pure (s.log (.curl_easy_setopt this.locals.handle "CURLOPT_URL"))

/-- The function `teardown` of `URLSessionTask.c`. -/
def URLSessionTask.teardown (s : Runtime) (self : ident) : Except Fault Runtime := do
  let this ← s.task self
  let s := if this.locals.handle ≠ NULL then s.log (.curl_easy_cleanup this.locals.handle)
    else s
  let this ← s.task self
  let s := if this.locals.httpHeaders ≠ NULL then
      s.log (.curl_slist_free_all this.locals.httpHeaders)
    else s
  pure s

/-- The function `run` of `URLSessionTask.c`, the thread function of a task.  The
outcome of `curl_easy_perform` is the argument `performed`; the completion
callback is code of the caller and is recorded in the trace.  The parameter
`release` is the runtime's `release`. -/
def URLSessionTask.run (release : Runtime → ident → Except Fault Runtime)
    (performed : Bool) (s : Runtime) (thread : ident) : Except Fault (ident × Runtime) := do
  let self ← (match s.heap thread with
    | some ⟨_, _, .thread _ data⟩ => .ok data
    | _ => .error .badAccess)
  let f ← dispatch s self (.task .setup)
  let s ← (if f = ⟨"URLSessionTask", "setup"⟩ then URLSessionTask.setup release s self
    else .error .badCall)
  let this ← s.task self
  assert (this.locals.handle ≠ NULL)
  let s := s.log (.curl_easy_perform this.locals.handle)
  let f ← dispatch s self (.task .teardown)
  let s ← (if f = ⟨"URLSessionTask", "teardown"⟩ then URLSessionTask.teardown s self
    else .error .badCall)
  let this ← s.task self
  let s := match this.completion with
    | some completion => s.log (.completion completion self performed)
    | none => s
  pure (NULL, s)

/-- The function `resume` of `URLSessionTask.c`. -/
def URLSessionTask.resume (s : Runtime) (self : ident) : Except Fault Runtime := do
  let this ← s.task self
  if this.state = .TASK_SUSPENDED then
    let s ← Thread.start s this.locals.thread
    s.setTask self (fun t => { t with state := .TASK_RUNNING })
  else
    pure s

/-! ## Reference counting -/

/-- The call `$(obj, dealloc)` through a `dealloc` function pointer: the two
implementations of the slot are linked by identity. -/
def callDealloc (release : Runtime → ident → Except Fault Runtime) (f : Fn)
    (s : Runtime) (self : ident) : Except Fault Runtime :=
  if f = ⟨"Object", "dealloc"⟩ then Object.dealloc s self
  else if f = ⟨"URLSessionTask", "dealloc"⟩ then URLSessionTask.dealloc release s self
  else .error .badCall

/-- Modelled from the spec: the deallocator (`Class.c` is not among the sources).
It invokes the destructor chain through the instance's `dealloc` slot, leaf
first, then frees the block. -/
def deallocate (release : Runtime → ident → Except Fault Runtime)
    (s : Runtime) (obj : ident) : Except Fault Runtime := do
  let f ← dispatch s obj (.object .dealloc)
  let s ← callDealloc release f s obj
  pure ((s.erase obj).log (.free obj))

/-- Modelled from the spec: `release` (`Class.c` is not among the sources).  It
decrements the reference count and, when the result is zero, deallocates the
instance; a release with no count left to give up is a fatal usage error.  The
first argument bounds the nesting of destructors that release further instances. -/
def release : Nat → Runtime → ident → Except Fault Runtime
  | 0, _, _ => .error .outOfFuel
  | fuel + 1, s, obj =>
    match s.heap obj with
    | none => .error .overRelease
    | some i =>
      if i.referenceCount = 0 then .error .overRelease
      else
        let s := (s.store obj { i with referenceCount := i.referenceCount - 1 }).log
          (.release obj)
        if i.referenceCount - 1 = 0 then deallocate (release fuel) s obj
        else .ok s

/-- The function `main` of `Hello.c`: `$$(Hello, helloWithGreeting, NULL)`,
`$(hello, sayHello)`, `release(hello)`.  The parameter `release` is the runtime's
`release`. -/
def Hello.main (release : Runtime → ident → Except Fault Runtime)
    (objectInit : ObjectInit) (s : Runtime) : Except Fault Runtime := do
  let f ← (match interfaceof _Hello (.hello .helloWithGreeting) with
    | none => .error .badCall
    | some f => .ok f)
  let (hello, s) ← (if f = ⟨"Hello", "helloWithGreeting"⟩ then
      Hello.helloWithGreeting objectInit s none
    else .error .badCall)
  let f ← dispatch s hello (.hello .sayHello)
  let s ← (if f = ⟨"Hello", "sayHello"⟩ then Hello.sayHello s hello else .error .badCall)
  release s hello

/-- The implementation `Object` stores in a slot of `ObjectInterface`. -/
def ObjectSlot.ofObject : ObjectSlot → Fn
  | .copy => ⟨"Object", "copy"⟩
  | .dealloc => ⟨"Object", "dealloc"⟩
  | .hash => ⟨"Object", "hash"⟩
  | .init => ⟨"Object", "init"⟩
  | .isEqual => ⟨"Object", "isEqual"⟩
  | .isKindOfClass => ⟨"Object", "isKindOfClass"⟩

/-- A state whose only instance is a `Hello` at address 1. -/
def helloState : Runtime :=
  { heap := fun a => if a = 1 then some ⟨_Hello, 1, .hello (some "hi")⟩ else none
    buffers := fun _ => none
    brk := 2
    limit := 16
    trace := [] }

/-- An `init` of `Object` that fails. -/
def failingInit : ObjectInit := fun s _ => (NULL, s)

/-- A state whose only instance, at address 1, is of a class that extends
`URLSessionTask` without an initializer of its own. -/
def dataTaskState : Runtime :=
  { heap := fun a =>
      if a = 1 then
        some ⟨.subclass "URLSessionDataTask" none __URLSessionTask, 1, .zeroed⟩
      else none
    buffers := fun _ => none
    brk := 2
    limit := 16
    trace := [] }

/-- An empty state with room for fifteen blocks. -/
def emptyState : Runtime :=
  { heap := fun _ => none, buffers := fun _ => none, brk := 1, limit := 16, trace := [] }

/-- `retain` applied `k` times to the same instance. -/
def retainN (s : Runtime) (obj : ident) : Nat → Except Fault Runtime
  | 0 => .ok s
  | k + 1 => do
    let s ← retainN s obj k
    let (_, s) ← retain s obj
    pure s

/-- `release` applied `j` times to the same instance. -/
def releaseN (fuel : Nat) (s : Runtime) (obj : ident) : Nat → Except Fault Runtime
  | 0 => .ok s
  | j + 1 => do
    let s ← releaseN fuel s obj j
    release fuel s obj

/-- The events of one `release` of the instance `i` at `p` whose destructor is
`Object`'s: the release itself and, when the count was 1, the destructor and the
`free` of the block. -/
def releaseEvents (i : Instance) (p : ident) : List Event :=
  .release p :: (if i.referenceCount = 1 then [.dealloc "Object" p, .free p] else [])

/-- The state after one `release` of the instance `i` at `p` whose destructor is
`Object`'s. -/
def afterRelease (s : Runtime) (p : ident) (i : Instance) : Runtime :=
  { s with
    heap := fun a =>
      if a = p then
        (if i.referenceCount = 1 then none
         else some { i with referenceCount := i.referenceCount - 1 })
      else s.heap a
    trace := s.trace ++ releaseEvents i p }

/-- Whether an event is a call of `release`. -/
def Event.isRelease : Event → Bool
  | .release _ => true
  | _ => false

/-- Whether an event is a call of `retain`. -/
def Event.isRetain : Event → Bool
  | .retain _ => true
  | _ => false

/-- The members of the task at `self` once `initWithRequestInSession` has written them. -/
def URLSessionTask.initialized (t0 : URLSessionTask) (thread error request session : ident)
    (completion : Option Fn) : URLSessionTask :=
  { error := error, request := request, session := session, completion := completion,
    state := .TASK_SUSPENDED,
    locals := { thread := thread, handle := t0.locals.handle,
                httpHeaders := t0.locals.httpHeaders } }

/-- Modelled from the spec: the descriptor of `URLRequest` (`URLRequest.c` is not
among the sources).  Every class extends the root; the class is taken to extend
`Object` directly and to assign no slot that `Object` declares. -/
def _URLRequest : Class := .subclass "URLRequest" none _Object

/-- Modelled from the spec: the descriptor of `URLSession` (`URLSession.c` is not
among the sources).  Every class extends the root; the class is taken to extend
`Object` directly and to assign no slot that `Object` declares. -/
def _URLSession : Class := .subclass "URLSession" none _Object

/-- A state with an initialized task at address 1, its request at 2, its session
at 3, its thread at 4 and its error buffer at 5.  The request and the session are
also owned by the caller. -/
def taskState : Runtime :=
  { heap := fun a =>
      if a = 1 then
        some ⟨__URLSessionTask, 1, .task
          { error := 5, request := 2, session := 3, completion := none,
            state := .TASK_SUSPENDED,
            locals := { thread := 4, handle := NULL, httpHeaders := NULL } }⟩
      else if a = 2 then
        some ⟨_URLRequest, 2, .request
          { httpBody := NULL, httpHeaders := NULL, httpMethod := .other 0, url := NULL }⟩
      else if a = 3 then some ⟨_URLSession, 2, .session NULL⟩
      else if a = 4 then some ⟨_Thread, 1, .thread (some ⟨"URLSessionTask", "run"⟩) 1⟩
      else none
    buffers := fun a => if a = 5 then some CURL_ERROR_SIZE else none
    brk := 6
    limit := 16
    trace := [] }

/-- Whether an event is a `retain` or a `release` of an instance below `bound`. -/
def Event.countsBelow (bound : ident) : Event → Prop
  | .retain a => a < bound
  | .release a => a < bound
  | _ => False

/-- The run from `s` to `s'` left every block below `bound`, other than those of
`own`, as it was, and neither retained nor released an instance below `bound`. -/
def Frame (bound : ident) (own : List ident) (s s' : Runtime) : Prop :=
  s.brk ≤ s'.brk
  ∧ (∀ a, a < bound → a ∉ own → s'.heap a = s.heap a)
  ∧ ∃ ev, s'.trace = s.trace ++ ev ∧ ∀ e ∈ ev, ¬ e.countsBelow bound

/-- Whether an event is a call of `retain` or of `release`. -/
def Event.isCount (e : Event) : Bool := e.isRetain || e.isRelease

/-- The run from `u` to `u'` left the instance at `p` as it was and neither
retained nor released it. -/
def Untouched (p : ident) (u u' : Runtime) : Prop :=
  u'.heap p = u.heap p
  ∧ ∃ ev, u'.trace = u.trace ++ ev ∧ Event.retain p ∉ ev ∧ Event.release p ∉ ev

/-- A state with a freshly allocated task at address 1, a request at 2 and a
session at 3, each owned once by the caller. -/
def freshTaskState : Runtime :=
  { heap := fun a =>
      if a = 1 then some ⟨__URLSessionTask, 1, .zeroed⟩
      else if a = 2 then
        some ⟨_URLRequest, 1, .request
          { httpBody := NULL, httpHeaders := NULL, httpMethod := .other 0, url := NULL }⟩
      else if a = 3 then some ⟨_URLSession, 1, .session NULL⟩
      else none
    buffers := fun _ => none
    brk := 4
    limit := 16
    trace := [] }

/-- The members of the task of `taskState`. -/
def suspendedTask : URLSessionTask :=
  { error := 5, request := 2, session := 3, completion := none, state := .TASK_SUSPENDED,
    locals := { thread := 4, handle := NULL, httpHeaders := NULL } }

/-! ## Shared lemmas -/

@[simp] theorem Runtime.log_heap (s : Runtime) (e : Event) : (s.log e).heap = s.heap := rfl

@[simp] theorem Runtime.log_buffers (s : Runtime) (e : Event) :
    (s.log e).buffers = s.buffers := rfl

@[simp] theorem Runtime.log_brk (s : Runtime) (e : Event) : (s.log e).brk = s.brk := rfl

@[simp] theorem Runtime.log_limit (s : Runtime) (e : Event) : (s.log e).limit = s.limit := rfl

@[simp] theorem Runtime.log_trace (s : Runtime) (e : Event) :
    (s.log e).trace = s.trace ++ [e] := rfl

@[simp] theorem Runtime.store_heap (s : Runtime) (obj : ident) (i : Instance) (a : ident) :
    (s.store obj i).heap a = if a = obj then some i else s.heap a := rfl

@[simp] theorem Runtime.store_buffers (s : Runtime) (obj : ident) (i : Instance) :
    (s.store obj i).buffers = s.buffers := rfl

@[simp] theorem Runtime.store_brk (s : Runtime) (obj : ident) (i : Instance) :
    (s.store obj i).brk = s.brk := rfl

@[simp] theorem Runtime.store_limit (s : Runtime) (obj : ident) (i : Instance) :
    (s.store obj i).limit = s.limit := rfl

@[simp] theorem Runtime.store_trace (s : Runtime) (obj : ident) (i : Instance) :
    (s.store obj i).trace = s.trace := rfl

@[simp] theorem Runtime.erase_heap (s : Runtime) (obj : ident) (a : ident) :
    (s.erase obj).heap a = if a = obj then none else s.heap a := rfl

@[simp] theorem Runtime.erase_buffers (s : Runtime) (obj : ident) :
    (s.erase obj).buffers = s.buffers := rfl

@[simp] theorem Runtime.erase_brk (s : Runtime) (obj : ident) : (s.erase obj).brk = s.brk := rfl

@[simp] theorem Runtime.erase_limit (s : Runtime) (obj : ident) :
    (s.erase obj).limit = s.limit := rfl

@[simp] theorem Runtime.erase_trace (s : Runtime) (obj : ident) :
    (s.erase obj).trace = s.trace := rfl

/-- The ancestry walk succeeds exactly on the classes of the superclass chain. -/
theorem Class.isKindOf_eq_true_iff (c target : Class) :
    c.isKindOf target = true ↔ target ∈ c.chain := by
  induction c with
  | root n h =>
    simp only [Class.isKindOf, Class.chain, decide_eq_true_eq, List.mem_singleton]
    exact eq_comm
  | subclass n h s ih =>
    simp only [Class.isKindOf, Class.chain, Bool.or_eq_true, decide_eq_true_eq, ih,
      List.mem_cons]
    exact or_congr eq_comm Iff.rfl

/-- The ancestry walk fails exactly on the classes outside the superclass chain. -/
theorem Class.isKindOf_eq_false_iff (c target : Class) :
    c.isKindOf target = false ↔ target ∉ c.chain := by
  rw [← Class.isKindOf_eq_true_iff]; simp

/-- A class heads its own superclass chain. -/
theorem Class.self_mem_chain (c : Class) : c ∈ c.chain := by
  cases c <;> simp [Class.chain]

/-- The chain of a class on the chain of `d` is part of the chain of `d`. -/
theorem Class.chain_subset_of_mem {k d : Class} (h : k ∈ d.chain) :
    ∀ a, a ∈ k.chain → a ∈ d.chain := by
  induction d with
  | root n i =>
    intro a ha
    simp [Class.chain] at h
    subst h
    exact ha
  | subclass n i s ih =>
    intro a ha
    simp only [Class.chain, List.mem_cons] at h
    rcases h with h | h
    · subst h; exact ha
    · simp only [Class.chain, List.mem_cons]
      exact Or.inr (ih h a ha)

/-- The root class is on the chain of both classes the sources define. -/
theorem _Object_mem_chain_of_mem {k d : Class} (hk : k = _Hello ∨ k = __URLSessionTask)
    (h : k ∈ d.chain) : _Object ∈ d.chain := by
  apply Class.chain_subset_of_mem h
  rcases hk with hk | hk <;> subst hk <;> decide

/-- A `super` call on a live instance resolves to the function stored in the slot
of the table of the calling class's declared superclass. -/
theorem super_eq_ok {s : Runtime} {K type S : Class} {obj : ident} {method : Slot} {f : Fn}
    {inst : Instance} (hK : K.superclass = some S) (hf : interfaceof S method = some f)
    (hobj : s.heap obj = some inst) (ht : type ∈ inst.clazz.chain) :
    super s K type obj method = .ok (f, obj) := by
  have hk := (Class.isKindOf_eq_true_iff inst.clazz type).2 ht
  simp [super, hK, hf, _cast, hobj, hk]

/-- The initializer of `Hello`, in terms of what `Object`'s `init` returned. -/
theorem Hello.initWithGreeting_eq (objectInit : ObjectInit) (s : Runtime) (self : ident)
    (inst : Instance) (greeting : Option String)
    (hself : s.heap self = some inst) (hobj : _Object ∈ inst.clazz.chain) :
    Hello.initWithGreeting objectInit s self greeting =
      if (objectInit s self).1 ≠ NULL then
        ((objectInit s self).2.setGreeting (objectInit s self).1
          (some (greeting.getD "Hello World!"))).map (fun s' => ((objectInit s self).1, s'))
      else .ok ((objectInit s self).1, (objectInit s self).2) := by
  have hs : super s _Hello _Object self (.object .init) = .ok (⟨"Object", "init"⟩, self) :=
    super_eq_ok rfl rfl hself hobj
  simp only [Hello.initWithGreeting, hs, callInit, bind, Except.bind, pure, Except.pure]
  simp
  split
  · rfl
  · rfl

/-! ## Interface composition -/

/-- C2. Interface composition is copy-then-override.  On any table copied from the
superclass, the initializer of `Hello` keeps every `ObjectInterface` slot (and
every slot that is not one of its three own), and the initializer of
`URLSessionTask` keeps every `ObjectInterface` slot other than `copy` and
`dealloc`, which it sets to its own functions.  In the composed tables, the
`ObjectInterface` part of `Hello` is `Object`'s implementation slot for slot,
and that of `URLSessionTask` is `Object`'s except for `copy` and `dealloc`. -/
theorem interface_copy_then_override (inherited : Interface) (m : ObjectSlot) :
    Hello.initialize inherited (.object m) = inherited (.object m)
    ∧ (∀ t : URLSessionTaskSlot, Hello.initialize inherited (.task t) = inherited (.task t))
    ∧ interfaceof _Object (.object m) = some m.ofObject
    ∧ interfaceof _Hello (.object m) = interfaceof _Object (.object m)
    ∧ URLSessionTask.initialize inherited (.object m) =
        (if m = .copy then some ⟨"URLSessionTask", "copy"⟩
         else if m = .dealloc then some ⟨"URLSessionTask", "dealloc"⟩
         else inherited (.object m))
    ∧ (∀ h : HelloSlot, URLSessionTask.initialize inherited (.hello h) = inherited (.hello h))
    ∧ interfaceof __URLSessionTask (.object m) =
        (if m = .copy then some ⟨"URLSessionTask", "copy"⟩
         else if m = .dealloc then some ⟨"URLSessionTask", "dealloc"⟩
         else interfaceof _Object (.object m)) := by
  refine ⟨?_, ?_, ?_, ?_, ?_, ?_, ?_⟩
  · simp [ Hello.initialize, Interface.set]
  · intro t; simp [ Hello.initialize, Interface.set]
  · cases m <;> rfl
  · cases m <;> rfl
  · cases m <;> rfl
  · intro h; cases h <;> rfl
  · cases m <;> rfl

/-! ## Type queries -/

/-- C3. For an instance of class `C`: on every class `A` of `C`'s superclass chain
(`C` included) `isKindOfClass` answers true and `cast` returns the instance
itself; on every class `U` outside the chain `isKindOfClass` answers false and
`cast` signals the type mismatch instead of returning the instance. -/
theorem isKindOfClass_cast_ancestry (s : Runtime) (i : ident) (inst : Instance)
    (h : s.heap i = some inst) :
    (∀ A, A ∈ inst.clazz.chain →
      isKindOfClass s i A = .ok true ∧ _cast s A i = .ok i)
    ∧ (∀ U, U ∉ inst.clazz.chain →
      isKindOfClass s i U = .ok false ∧ _cast s U i = .error .typeMismatch) := by
  constructor
  · intro A hA
    have hk := (Class.isKindOf_eq_true_iff inst.clazz A).2 hA
    simp [isKindOfClass, _cast, h, hk]
  · intro U hU
    have hk := (Class.isKindOf_eq_false_iff inst.clazz U).2 hU
    simp [isKindOfClass, _cast, h, hk]

/-- C3 at a `Hello` instance: `Hello` and `Object` are ancestors, `Thread` is not. -/
theorem isKindOfClass_cast_ancestry_witness :
    (isKindOfClass helloState 1 _Hello = .ok true ∧ _cast helloState _Hello 1 = .ok 1)
    ∧ (isKindOfClass helloState 1 _Object = .ok true ∧ _cast helloState _Object 1 = .ok 1)
    ∧ (isKindOfClass helloState 1 _Thread = .ok false
        ∧ _cast helloState _Thread 1 = .error .typeMismatch) :=
  ⟨(isKindOfClass_cast_ancestry helloState 1 ⟨_Hello, 1, .hello (some "hi")⟩ rfl).1 _Hello
      (by decide),
   (isKindOfClass_cast_ancestry helloState 1 ⟨_Hello, 1, .hello (some "hi")⟩ rfl).1 _Object
      (by decide),
   (isKindOfClass_cast_ancestry helloState 1 ⟨_Hello, 1, .hello (some "hi")⟩ rfl).2 _Thread
      (by decide)⟩

/-! ## Initializer chains -/

/-- C4. Subclass initializers run the superclass initializer first and propagate
its failure.  When `Object`'s `init` returns `NULL`, `initWithGreeting` of `Hello`
and `initWithRequestInSession` of `URLSessionTask` return `NULL` in exactly the
state `Object`'s `init` left: no own field is written, no `Thread` and no error
buffer is allocated, neither the request nor the session is retained.  Both
initializers depend on `Object`'s `init` only through its result on the state
they were entered in, the one in which no own field has been written yet. -/
theorem init_propagates_super_failure (objectInit : ObjectInit) (s s1 : Runtime)
    (self request session : ident) (inst : Instance) (greeting : Option String)
    (completion : Option Fn)
    (hself : s.heap self = some inst) (hobj : _Object ∈ inst.clazz.chain)
    (hreq : request ≠ NULL) (hses : session ≠ NULL)
    (hinit : objectInit s self = (NULL, s1)) :
    Hello.initWithGreeting objectInit s self greeting = .ok (NULL, s1)
    ∧ URLSessionTask.initWithRequestInSession objectInit s self request session completion
        = .ok (NULL, s1)
    ∧ (∀ objectInit' : ObjectInit, objectInit' s self = objectInit s self →
        Hello.initWithGreeting objectInit' s self greeting
          = Hello.initWithGreeting objectInit s self greeting
        ∧ URLSessionTask.initWithRequestInSession objectInit' s self request session completion
          = URLSessionTask.initWithRequestInSession objectInit s self request session
              completion) := by
  have hs : super s __URLSessionTask _Object self (.object .init)
      = .ok (⟨"Object", "init"⟩, self) := super_eq_ok rfl rfl hself hobj
  refine ⟨?_, ?_, ?_⟩
  · rw [Hello.initWithGreeting_eq objectInit s self inst greeting hself hobj, hinit]
    simp
  · simp [URLSessionTask.initWithRequestInSession, hs, callInit, hinit, hreq, hses, bind,
      Except.bind, pure, Except.pure, assert]
  · intro o' ho'
    constructor
    · rw [Hello.initWithGreeting_eq objectInit s self inst greeting hself hobj,
        Hello.initWithGreeting_eq o' s self inst greeting hself hobj, ho']
    · simp only [URLSessionTask.initWithRequestInSession, hs, callInit, bind,
        Except.bind, pure, Except.pure]
      simp [ho']

/-- C4 at the `Hello` of `helloState`, with an `init` of `Object` that fails. -/
theorem init_propagates_super_failure_witness :
    Hello.initWithGreeting failingInit helloState 1 (some "hey") = .ok (NULL, helloState)
    ∧ URLSessionTask.initWithRequestInSession failingInit helloState 1 7 8 none
        = .ok (NULL, helloState) :=
  have h := init_propagates_super_failure failingInit helloState helloState 1 7 8
    ⟨_Hello, 1, .hello (some "hi")⟩ (some "hey") none rfl (by decide) (by decide) (by decide) rfl
  ⟨h.1, h.2.1⟩

/-! ## Superclass calls -/

/-- C7. A superclass call is resolved statically.  Whatever class the instance
`obj` is stamped with, `super(type, obj, method)` written in class `K` yields the
function stored in slot `method` of the table of `K`'s declared superclass.  For
an instance of any class that has `Hello` on its chain, the call in
`initWithGreeting` reaches `Object`'s `init`; for an instance of any class that
has `URLSessionTask` on its chain, the call in `dealloc` reaches `Object`'s
`dealloc`, not the `dealloc` of `URLSessionTask` that its own table holds, even
where the table of the superclass of the instance's class holds that one. -/
theorem super_resolves_statically (s : Runtime) (obj : ident) (inst : Instance)
    (hobj : s.heap obj = some inst) :
    (∀ (K S type : Class) (method : Slot) (f : Fn),
      K.superclass = some S → interfaceof S method = some f → type ∈ inst.clazz.chain →
      super s K type obj method = .ok (f, obj))
    ∧ (_Hello ∈ inst.clazz.chain →
        super s _Hello _Object obj (.object .init) = .ok (⟨"Object", "init"⟩, obj))
    ∧ (__URLSessionTask ∈ inst.clazz.chain →
        super s __URLSessionTask _Object obj (.object .dealloc)
          = .ok (⟨"Object", "dealloc"⟩, obj)
        ∧ interfaceof __URLSessionTask (.object .dealloc) = some ⟨"URLSessionTask", "dealloc"⟩
        ∧ (⟨"Object", "dealloc"⟩ : Fn) ≠ ⟨"URLSessionTask", "dealloc"⟩)
    ∧ (∀ n, inst.clazz = .subclass n none __URLSessionTask →
        dispatch s obj (.object .dealloc) = .ok ⟨"URLSessionTask", "dealloc"⟩
        ∧ inst.clazz.superclass.bind (fun c => interfaceof c (.object .dealloc))
            = some ⟨"URLSessionTask", "dealloc"⟩) := by
  refine ⟨?_, ?_, ?_, ?_⟩
  · intro K S type method f hK hf ht
    exact super_eq_ok hK hf hobj ht
  · intro h
    exact super_eq_ok rfl rfl hobj (_Object_mem_chain_of_mem (Or.inl rfl) h)
  · intro h
    exact ⟨super_eq_ok rfl rfl hobj (_Object_mem_chain_of_mem (Or.inr rfl) h), rfl, by decide⟩
  · intro n hn
    constructor
    · simp only [dispatch, hobj, hn]
      rfl
    · rw [hn]
      rfl

/-- C7 at an instance of a subclass of `URLSessionTask`: the table of its class
holds the `dealloc` of `URLSessionTask`, the superclass call in that function
reaches `Object`'s. -/
theorem super_resolves_statically_witness :
    super dataTaskState __URLSessionTask _Object 1 (.object .dealloc)
      = .ok (⟨"Object", "dealloc"⟩, 1)
    ∧ dispatch dataTaskState 1 (.object .dealloc) = .ok ⟨"URLSessionTask", "dealloc"⟩ :=
  have h := super_resolves_statically dataTaskState 1
    ⟨.subclass "URLSessionDataTask" none __URLSessionTask, 1, .zeroed⟩ rfl
  ⟨(h.2.2.1 (by decide)).1, (h.2.2.2 "URLSessionDataTask" rfl).1⟩

/-! ## Hello -/

/-- The factory of `Hello` is the initializer applied to a fresh allocation. -/
theorem Hello.helloWithGreeting_eq (objectInit : ObjectInit) (s : Runtime)
    (greeting : Option String) (hmem : s.brk < s.limit) :
    Hello.helloWithGreeting objectInit s greeting
      = Hello.initWithGreeting objectInit (_alloc s _Hello).2 (_alloc s _Hello).1 greeting := by
  have hd : dispatch (_alloc s _Hello).2 (_alloc s _Hello).1 (.hello .initWithGreeting)
      = .ok ⟨"Hello", "initWithGreeting"⟩ := by
    simp only [dispatch, _alloc, hmem, if_true]
    rfl
  simp only [Hello.helloWithGreeting, hd, bind, Except.bind]
  simp

/-- C10. When `Object`'s `init` succeeds (it returns a non-null `r`, a block that
holds a `Hello`), `initWithGreeting` returns `r` with the greeting stored: a
non-null greeting unchanged, the default `"Hello World!"` for a null one.  The
field is never null afterwards, and `sayHello` prints it.  The factory
`helloWithGreeting` is `initWithGreeting` on a fresh allocation. -/
theorem initWithGreeting_stores_greeting (objectInit : ObjectInit) (s s1 : Runtime)
    (self r : ident) (inst : Instance) (greeting : Option String) (c : Class) (n : Nat)
    (fs : Fields)
    (hself : s.heap self = some inst) (hobj : _Object ∈ inst.clazz.chain)
    (hinit : objectInit s self = (r, s1)) (hr : r ≠ NULL)
    (hlive : s1.heap r = some ⟨c, n, fs⟩) (hfs : fs = .zeroed ∨ ∃ g, fs = .hello g) :
    ∃ s', Hello.initWithGreeting objectInit s self greeting = .ok (r, s')
      ∧ s'.heap r = some ⟨c, n, .hello (some (greeting.getD "Hello World!"))⟩
      ∧ (∀ g, greeting = some g → s'.greeting r = .ok (some g))
      ∧ (greeting = none → s'.greeting r = .ok (some "Hello World!"))
      ∧ s'.greeting r ≠ .ok none
      ∧ Hello.sayHello s' r = .ok (s'.log (.printf (greeting.getD "Hello World!" ++ "\n")))
      ∧ (∀ st : Runtime, st.brk < st.limit →
          Hello.helloWithGreeting objectInit st greeting
            = Hello.initWithGreeting objectInit (_alloc st _Hello).2 (_alloc st _Hello).1
                greeting) := by
  have hset : s1.setGreeting r (some (greeting.getD "Hello World!"))
      = .ok (s1.store r ⟨c, n, .hello (some (greeting.getD "Hello World!"))⟩) := by
    rcases hfs with h | ⟨g, h⟩ <;> subst h <;> simp [Runtime.setGreeting, hlive]
  refine ⟨s1.store r ⟨c, n, .hello (some (greeting.getD "Hello World!"))⟩, ?_, ?_, ?_, ?_,
    ?_, ?_, ?_⟩
  · rw [Hello.initWithGreeting_eq objectInit s self inst greeting hself hobj, hinit]
    simp [hr, hset, Except.map]
  · simp
  · intro g hg
    simp [Runtime.greeting, hg]
  · intro hg
    simp [Runtime.greeting, hg]
  · simp [Runtime.greeting]
  · simp [Hello.sayHello, Runtime.greeting, bind, Except.bind, pure, Except.pure]
  · intro st hst
    exact Hello.helloWithGreeting_eq objectInit st greeting hst

/-- C10 on the program of `Hello.c`: the factory called with a null greeting in an
empty state returns the instance at address 1 holding the default greeting, and
`main` prints it before releasing the instance. -/
theorem initWithGreeting_stores_greeting_witness :
    (∃ s', Hello.initWithGreeting Object.init (_alloc emptyState _Hello).2 1 none = .ok (1, s')
      ∧ s'.heap 1 = some ⟨_Hello, 1, .hello (some "Hello World!")⟩)
    ∧ (Hello.main (release 1) Object.init emptyState).map (·.trace)
        = .ok [.alloc 1 _Hello, .printf "Hello World!\n", .release 1, .dealloc "Object" 1,
            .free 1] :=
  have h := initWithGreeting_stores_greeting Object.init (_alloc emptyState _Hello).2
    (_alloc emptyState _Hello).2 1 1 ⟨_Hello, 1, .zeroed⟩ none _Hello 1 .zeroed rfl
    (by decide) rfl (by decide) rfl (Or.inl rfl)
  ⟨h.elim (fun s' hs => ⟨s', hs.1, hs.2.1⟩), rfl⟩

/-! ## Reference counting -/

/-- The state `retain` produces on a live instance. -/
theorem retain_eq {s : Runtime} {obj : ident} {i : Instance} (h : s.heap obj = some i) :
    retain s obj = .ok (obj,
      (s.store obj { i with referenceCount := i.referenceCount + 1 }).log (.retain obj)) := by
  simp [retain, h]

/-- A `release` that leaves a positive count only decrements. -/
theorem release_decrement {s : Runtime} {obj : ident} {i : Instance} (fuel : Nat)
    (h : s.heap obj = some i) (hn : 2 ≤ i.referenceCount) :
    release (fuel + 1) s obj = .ok
      ((s.store obj { i with referenceCount := i.referenceCount - 1 }).log (.release obj)) := by
  have h0 : i.referenceCount ≠ 0 := by omega
  have h1 : i.referenceCount - 1 ≠ 0 := by omega
  simp [release, h, h0, h1]

/-- A `release` that takes the count to zero deallocates. -/
theorem release_last {s : Runtime} {obj : ident} {i : Instance} (fuel : Nat)
    (h : s.heap obj = some i) (hn : i.referenceCount = 1) :
    release (fuel + 1) s obj = deallocate (release fuel)
      ((s.store obj { i with referenceCount := 0 }).log (.release obj)) obj := by
  simp [release, h, hn]

/-- After a completed deallocation the block is gone. -/
theorem deallocate_heap {rel : Runtime → ident → Except Fault Runtime} {s s' : Runtime}
    {obj : ident} (h : deallocate rel s obj = .ok s') : s'.heap obj = none := by
  simp only [deallocate, bind, Except.bind, pure, Except.pure] at h
  split at h
  · cases h
  · split at h
    · cases h
    · cases h
      simp

/-- Deallocation of an instance whose destructor is `Object`'s. -/
theorem deallocate_root {rel : Runtime → ident → Except Fault Runtime} {s : Runtime}
    {obj : ident} {i : Instance} (h : s.heap obj = some i)
    (hd : interfaceof i.clazz (.object .dealloc) = some ⟨"Object", "dealloc"⟩) :
    deallocate rel s obj = .ok (((s.log (.dealloc "Object" obj)).erase obj).log (.free obj)) := by
  simp [deallocate, dispatch, h, hd, callDealloc, Object.dealloc, bind, Except.bind, pure,
    Except.pure]

/-- A `release` of a block that is not live is the usage error. -/
theorem release_overRelease {s : Runtime} {obj : ident} (fuel : Nat) (h : s.heap obj = none) :
    release (fuel + 1) s obj = .error .overRelease := by
  simp [release, h]

/-- The effect of `k` retains. -/
theorem retainN_spec (obj : ident) (k : Nat) : ∀ (s : Runtime) (i : Instance),
    s.heap obj = some i →
    ∃ s', retainN s obj k = .ok s'
      ∧ s'.heap obj = some { i with referenceCount := i.referenceCount + k }
      ∧ s'.trace = s.trace ++ List.replicate k (.retain obj) := by
  induction k with
  | zero => intro s i h; exact ⟨s, rfl, by simpa using h, by simp⟩
  | succ k ih =>
    intro s i h
    obtain ⟨s', hs', hh, ht⟩ := ih s i h
    refine ⟨(s'.store obj { i with referenceCount := i.referenceCount + k + 1 }).log
      (.retain obj), ?_, ?_, ?_⟩
    · simp [retainN, hs', retain_eq hh, bind, Except.bind, pure, Except.pure]
    · simp [Nat.add_assoc]
    · simp [ht, List.replicate_succ']

/-- The effect of `j` releases that leave a positive count. -/
theorem releaseN_spec (fuel : Nat) (obj : ident) (j : Nat) : ∀ (s : Runtime) (i : Instance),
    s.heap obj = some i → j < i.referenceCount →
    ∃ s', releaseN (fuel + 1) s obj j = .ok s'
      ∧ s'.heap obj = some { i with referenceCount := i.referenceCount - j }
      ∧ s'.trace = s.trace ++ List.replicate j (.release obj) := by
  induction j with
  | zero => intro s i h _; exact ⟨s, rfl, by simpa using h, by simp⟩
  | succ j ih =>
    intro s i h hj
    obtain ⟨s', hs', hh, ht⟩ := ih s i h (by omega)
    refine ⟨(s'.store obj { i with referenceCount := i.referenceCount - j - 1 }).log
      (.release obj), ?_, ?_, ?_⟩
    · have := release_decrement fuel hh (by simp; omega)
      simp [releaseN, hs', this, bind, Except.bind]
    · simp [Nat.sub_add_eq]
    · simp [ht, List.replicate_succ']


/-- C1. For an instance whose reference count is `n ≥ 1`: `retain` returns the same
instance and leaves the count at `n + 1`; `release` leaves the count at `n - 1`
when that is not zero, and deallocates the instance exactly when `n - 1 = 0`
(the block is gone after a completed `release` if and only if `n - 1 = 0`; it
completes for every instance whose destructor is `Object`'s).  A `retain`
followed by a `release` leaves the heap as it was.  An instance allocated with
count 1 and retained `k` times is live with count `k + 1 - j` after `j ≤ k`
releases, is deallocated by release `k + 1` (one `free` in the trace), and a
further release is the over-release error, not a second deallocation. -/
theorem retain_release_count (fuel : Nat) (s : Runtime) (obj : ident) (i : Instance)
    (h : s.heap obj = some i) (hn : 1 ≤ i.referenceCount) :
    (∃ s₁, retain s obj = .ok (obj, s₁)
      ∧ s₁.referenceCount obj = some (i.referenceCount + 1)
      ∧ ∃ s₂, release (fuel + 1) s₁ obj = .ok s₂ ∧ s₂.heap = s.heap
          ∧ s₂.trace = s.trace ++ [.retain obj, .release obj])
    ∧ (i.referenceCount - 1 ≠ 0 →
        ∃ s₂, release (fuel + 1) s obj = .ok s₂
          ∧ s₂.heap obj = some { i with referenceCount := i.referenceCount - 1 }
          ∧ s₂.trace = s.trace ++ [.release obj])
    ∧ (i.referenceCount - 1 = 0 →
        release (fuel + 1) s obj = deallocate (release fuel)
          ((s.store obj { i with referenceCount := 0 }).log (.release obj)) obj
        ∧ (interfaceof i.clazz (.object .dealloc) = some ⟨"Object", "dealloc"⟩ →
            ∃ s₂, release (fuel + 1) s obj = .ok s₂ ∧ s₂.heap obj = none
              ∧ s₂.trace = s.trace ++ [.release obj, .dealloc "Object" obj, .free obj]))
    ∧ (∀ s₂, release (fuel + 1) s obj = .ok s₂ →
        (s₂.heap obj = none ↔ i.referenceCount - 1 = 0))
    ∧ (∀ (st : Runtime) (T : Class) (k : Nat), st.brk < st.limit →
        interfaceof T (.object .dealloc) = some ⟨"Object", "dealloc"⟩ →
        ∃ b, retainN (_alloc st T).2 (_alloc st T).1 k = .ok b
          ∧ b.referenceCount (_alloc st T).1 = some (k + 1)
          ∧ (∀ j, j ≤ k → ∃ c, releaseN (fuel + 1) b (_alloc st T).1 j = .ok c
              ∧ c.referenceCount (_alloc st T).1 = some (k + 1 - j))
          ∧ ∃ d, releaseN (fuel + 1) b (_alloc st T).1 (k + 1) = .ok d
              ∧ d.heap (_alloc st T).1 = none
              ∧ d.trace = st.trace ++ [.alloc (_alloc st T).1 T]
                  ++ List.replicate k (.retain (_alloc st T).1)
                  ++ List.replicate (k + 1) (.release (_alloc st T).1)
                  ++ [.dealloc "Object" (_alloc st T).1, .free (_alloc st T).1]
              ∧ release (fuel + 1) d (_alloc st T).1 = .error .overRelease) := by
  refine ⟨?_, ?_, ?_, ?_, ?_⟩
  · refine ⟨_, retain_eq h, by simp [Runtime.referenceCount], ?_⟩
    refine ⟨_, release_decrement (i := { i with referenceCount := i.referenceCount + 1 }) fuel
      (by simp) (by simp; omega), ?_, by simp⟩
    funext a
    by_cases ha : a = obj
    · subst ha; simp [h]
    · simp [ha]
  · intro h1
    exact ⟨_, release_decrement fuel h (by omega), by simp, by simp⟩
  · intro h1
    have h1' : i.referenceCount = 1 := by omega
    refine ⟨release_last fuel h h1', fun hd => ?_⟩
    rw [release_last fuel h h1']
    refine ⟨_, deallocate_root (i := { i with referenceCount := 0 }) (by simp) hd, by simp,
      by simp⟩
  · intro s₂ hs₂
    by_cases h1 : i.referenceCount - 1 = 0
    · have h1' : i.referenceCount = 1 := by omega
      rw [release_last fuel h h1'] at hs₂
      simp [deallocate_heap hs₂, h1]
    · rw [release_decrement fuel h (by omega)] at hs₂
      cases hs₂
      simp [h1]
  · intro st T k hmem hd
    have ha : (_alloc st T).2.heap (_alloc st T).1 = some ⟨T, 1, .zeroed⟩ := by
      simp [_alloc, hmem]
    have hat : (_alloc st T).2.trace = st.trace ++ [.alloc (_alloc st T).1 T] := by
      simp [_alloc, hmem]
    obtain ⟨b, hb, hbh, hbt⟩ := retainN_spec (_alloc st T).1 k _ _ ha
    refine ⟨b, hb, by simp [Runtime.referenceCount, hbh, Nat.add_comm], ?_, ?_⟩
    · intro j hj
      obtain ⟨c, hc, hch, _⟩ := releaseN_spec fuel (_alloc st T).1 j b _ hbh (by simp; omega)
      exact ⟨c, hc, by simp [Runtime.referenceCount, hch, Nat.add_comm]⟩
    · obtain ⟨c, hc, hch, hct⟩ := releaseN_spec fuel (_alloc st T).1 k b _ hbh (by simp)
      have hl := release_last fuel hch (by simp)
      rw [deallocate_root (i := ⟨T, 0, .zeroed⟩) (by simp) hd] at hl
      have hN : releaseN (fuel + 1) b (_alloc st T).1 (k + 1)
          = release (fuel + 1) c (_alloc st T).1 := by
        simp [releaseN, hc, bind, Except.bind]
      rw [hl] at hN
      exact ⟨_, hN, by simp, by simp [hct, hbt, hat, List.replicate_succ'],
        release_overRelease fuel (by simp)⟩

/-- C1 at the `Hello` of `helloState`, whose count is 1: a retain and a release
restore the heap, and a release alone deallocates the instance. -/
theorem retain_release_count_witness :
    (∃ s₁, retain helloState 1 = .ok (1, s₁) ∧ s₁.referenceCount 1 = some 2
      ∧ ∃ s₂, release 1 s₁ 1 = .ok s₂ ∧ s₂.heap = helloState.heap
          ∧ s₂.trace = [.retain 1, .release 1])
    ∧ (∃ s₂, release 1 helloState 1 = .ok s₂ ∧ s₂.heap 1 = none
        ∧ s₂.trace = [.release 1, .dealloc "Object" 1, .free 1]) :=
  have h := retain_release_count 0 helloState 1 ⟨_Hello, 1, .hello (some "hi")⟩ rfl
    (by decide)
  ⟨h.1, (h.2.2.1 (by decide)).2 rfl⟩

/-! ## URLSessionTask: construction and destruction -/

/-- Two states with the same components are equal. -/
theorem Runtime.ext' {a b : Runtime} (h1 : a.heap = b.heap) (h2 : a.buffers = b.buffers)
    (h3 : a.brk = b.brk) (h4 : a.limit = b.limit) (h5 : a.trace = b.trace) : a = b := by
  cases a; cases b; simp_all

/-- One `release` of a live instance whose destructor is `Object`'s. -/
theorem release_root {s : Runtime} {p : ident} {i : Instance} (fuel : Nat)
    (h : s.heap p = some i) (hn : 1 ≤ i.referenceCount)
    (hd : interfaceof i.clazz (.object .dealloc) = some ⟨"Object", "dealloc"⟩) :
    release (fuel + 1) s p = .ok (afterRelease s p i) := by
  by_cases h1 : i.referenceCount = 1
  · rw [release_last fuel h h1,
      deallocate_root (i := { i with referenceCount := 0 }) (by simp) hd]
    congr 1
    apply Runtime.ext'
    · funext a
      by_cases ha : a = p <;> simp [afterRelease, h1, ha]
    all_goals simp [afterRelease, releaseEvents, h1]
  · rw [release_decrement fuel h (by omega)]
    congr 1
    apply Runtime.ext'
    · funext a
      simp [afterRelease, h1]
    all_goals simp [afterRelease, releaseEvents, h1]


/-- A `release` leaves the other blocks as they are. -/
theorem afterRelease_heap_ne (s : Runtime) (p : ident) (i : Instance) {a : ident}
    (h : a ≠ p) : (afterRelease s p i).heap a = s.heap a := by
  simp [afterRelease, h]

/-- Freeing a buffer leaves the instances as they are. -/
theorem free_heap (s : Runtime) (p : ident) : (free s p).heap = s.heap := rfl

/-- The state `dealloc` of `URLSessionTask` produces on a task whose thread, request
and session are live, distinct instances with `Object`'s destructor. -/
theorem URLSessionTask.dealloc_eq (fuel : Nat) (s : Runtime) (self : ident) (c : Class)
    (n : Nat) (t : URLSessionTask) (ith irq iss : Instance)
    (hself : s.heap self = some ⟨c, n, .task t⟩) (hobj : _Object ∈ c.chain)
    (hth : s.heap t.locals.thread = some ith) (hrq : s.heap t.request = some irq)
    (hss : s.heap t.session = some iss)
    (hthn : 1 ≤ ith.referenceCount) (hrqn : 1 ≤ irq.referenceCount)
    (hssn : 1 ≤ iss.referenceCount)
    (hthd : interfaceof ith.clazz (.object .dealloc) = some ⟨"Object", "dealloc"⟩)
    (hrqd : interfaceof irq.clazz (.object .dealloc) = some ⟨"Object", "dealloc"⟩)
    (hssd : interfaceof iss.clazz (.object .dealloc) = some ⟨"Object", "dealloc"⟩)
    (h1 : t.locals.thread ≠ self) (h2 : t.request ≠ self) (h3 : t.session ≠ self)
    (h4 : t.request ≠ t.locals.thread) (h5 : t.session ≠ t.locals.thread)
    (h6 : t.session ≠ t.request) :
    URLSessionTask.dealloc (release (fuel + 1)) s self = .ok
      ((afterRelease (afterRelease (afterRelease
        (if t.error ≠ NULL then free (s.log (.dealloc "URLSessionTask" self)) t.error
         else s.log (.dealloc "URLSessionTask" self))
        t.locals.thread ith) t.request irq) t.session iss).log (.dealloc "Object" self)) := by
  have e1 : ∀ a, (if t.error ≠ NULL then free (s.log (.dealloc "URLSessionTask" self)) t.error
      else s.log (.dealloc "URLSessionTask" self)).heap a = s.heap a := by
    intro a
    split <;> simp [free_heap]
  generalize hs1 : (if t.error ≠ NULL then free (s.log (.dealloc "URLSessionTask" self)) t.error
      else s.log (.dealloc "URLSessionTask" self)) = s1 at e1
  have t0 : (s.log (.dealloc "URLSessionTask" self)).task self = .ok t := by
    simp [Runtime.task, hself]
  have t1 : s1.task self = .ok t := by simp [Runtime.task, e1, hself]
  have r1 := release_root (s := s1) fuel (by rw [e1]; exact hth) hthn hthd
  have t2 : (afterRelease s1 t.locals.thread ith).task self = .ok t := by
    simp [Runtime.task, afterRelease_heap_ne _ _ _ (Ne.symm h1), e1, hself]
  have r2 := release_root (s := afterRelease s1 t.locals.thread ith) fuel
    (by rw [afterRelease_heap_ne _ _ _ h4, e1]; exact hrq) hrqn hrqd
  have t3 : (afterRelease (afterRelease s1 t.locals.thread ith) t.request irq).task self
      = .ok t := by
    simp [Runtime.task, afterRelease_heap_ne _ _ _ (Ne.symm h1),
      afterRelease_heap_ne _ _ _ (Ne.symm h2), e1, hself]
  have r3 := release_root
    (s := afterRelease (afterRelease s1 t.locals.thread ith) t.request irq) fuel
    (by rw [afterRelease_heap_ne _ _ _ h6, afterRelease_heap_ne _ _ _ h5, e1]; exact hss)
    hssn hssd
  have hsup : super (afterRelease (afterRelease (afterRelease s1 t.locals.thread ith)
      t.request irq) t.session iss) __URLSessionTask _Object self (.object .dealloc)
      = .ok (⟨"Object", "dealloc"⟩, self) := by
    have hh : (afterRelease (afterRelease (afterRelease s1 t.locals.thread ith)
        t.request irq) t.session iss).heap self = some ⟨c, n, .task t⟩ := by
      rw [afterRelease_heap_ne _ _ _ (Ne.symm h3), afterRelease_heap_ne _ _ _ (Ne.symm h2),
        afterRelease_heap_ne _ _ _ (Ne.symm h1), e1]
      exact hself
    exact super_eq_ok (K := __URLSessionTask) (S := _Object) rfl rfl hh hobj
  simp only [URLSessionTask.dealloc, bind, Except.bind, t0, hs1, t1, r1, t2, r2, t3, r3, hsup,
    Object.dealloc, if_true]


/-- The state `initWithRequestInSession` produces when `Object`'s `init` succeeds. -/
theorem URLSessionTask.init_ok (objectInit : ObjectInit) (s s1 : Runtime)
    (self r request session : ident) (completion : Option Fn) (inst irq iss : Instance)
    (c : Class) (n : Nat) (fs : Fields) (t0 : URLSessionTask)
    (hself : s.heap self = some inst) (hobj : _Object ∈ inst.clazz.chain)
    (hreq : request ≠ NULL) (hses : session ≠ NULL)
    (hinit : objectInit s self = (r, s1)) (hr : r ≠ NULL)
    (hlive : s1.heap r = some ⟨c, n, fs⟩) (hfs : s1.task r = .ok t0)
    (hrq : s1.heap request = some irq) (hss : s1.heap session = some iss)
    (d1 : request ≠ r) (d2 : session ≠ r) (d3 : session ≠ request)
    (b1 : s1.brk ≠ r) (b2 : s1.brk ≠ request) (b3 : s1.brk ≠ session)
    (hmem : s1.brk + 1 < s1.limit) :
    ∃ s', URLSessionTask.initWithRequestInSession objectInit s self request session completion
        = .ok (r, s')
      ∧ s'.heap r = some ⟨c, n, .task (URLSessionTask.initialized t0 s1.brk (s1.brk + 1)
          request session completion)⟩
      ∧ s'.heap request = some { irq with referenceCount := irq.referenceCount + 1 }
      ∧ s'.heap session = some { iss with referenceCount := iss.referenceCount + 1 }
      ∧ s'.heap s1.brk = some ⟨_Thread, 1, .thread (some ⟨"URLSessionTask", "run"⟩) r⟩
      ∧ s'.buffers (s1.brk + 1) = some CURL_ERROR_SIZE
      ∧ s'.trace = s1.trace ++ [.alloc s1.brk _Thread, .calloc (s1.brk + 1) CURL_ERROR_SIZE,
          .retain request, .retain session] := by
  have hs : super s __URLSessionTask _Object self (.object .init)
      = .ok (⟨"Object", "init"⟩, self) := super_eq_ok rfl rfl hself hobj
  have hmem' : s1.brk < s1.limit := Nat.lt_of_succ_lt hmem
  have he : s1.brk + 1 ≠ NULL := Nat.succ_ne_zero _
  have he' : s1.brk ≠ s1.brk + 1 := (Nat.succ_ne_self _).symm
  have hfs' : fs = .zeroed ∧ t0 = URLSessionTask.zeroed ∨ fs = .task t0 := by
    simp only [Runtime.task, hlive] at hfs
    cases fs <;> simp_all
  rcases hfs' with ⟨hf, ht⟩ | hf
  · subst hf ht
    simp [URLSessionTask.initWithRequestInSession, hs, callInit, hinit, hreq, hses, hr, bind,
      Except.bind, pure, Except.pure, _alloc, hmem, hmem', Thread.initWithFunction,
      Runtime.setTask, calloc, retain, hlive, hrq, hss, d1, d2, d3, b1, b2, b3,
      Ne.symm d1, Ne.symm d2, Ne.symm d3, Ne.symm b1, Ne.symm b2, Ne.symm b3,
      URLSessionTask.initialized, assert, he, he']
  · subst hf
    simp [URLSessionTask.initWithRequestInSession, hs, callInit, hinit, hreq, hses, hr, bind,
      Except.bind, pure, Except.pure, _alloc, hmem, hmem', Thread.initWithFunction,
      Runtime.setTask, calloc, retain, hlive, hrq, hss, d1, d2, d3, b1, b2, b3,
      Ne.symm d1, Ne.symm d2, Ne.symm d3, Ne.symm b1, Ne.symm b2, Ne.symm b3,
      URLSessionTask.initialized, assert, he, he']

/-- The events of one `release` hold one call of `release`. -/
theorem releaseEvents_filter (i : Instance) (p : ident) :
    (releaseEvents i p).filter Event.isRelease = [.release p] := by
  unfold releaseEvents
  split <;> simp [Event.isRelease]

/-- C5. Destruction is leaf-first.  On a task whose thread, request and session
are live, distinct instances, `dealloc` of `URLSessionTask` first tears down the
task's own state: it frees the error buffer when that is non-null, then releases
the thread, the request and the session, each exactly once and in this order
(each release followed by that instance's own deallocation when its count
reaches zero).  Only then does it invoke `Object`'s `dealloc` on the task, and
that call is the last event of the run. -/
theorem dealloc_leaf_first (fuel : Nat) (s : Runtime) (self : ident) (c : Class)
    (n : Nat) (t : URLSessionTask) (ith irq iss : Instance)
    (hself : s.heap self = some ⟨c, n, .task t⟩) (hobj : _Object ∈ c.chain)
    (hth : s.heap t.locals.thread = some ith) (hrq : s.heap t.request = some irq)
    (hss : s.heap t.session = some iss)
    (hthn : 1 ≤ ith.referenceCount) (hrqn : 1 ≤ irq.referenceCount)
    (hssn : 1 ≤ iss.referenceCount)
    (hthd : interfaceof ith.clazz (.object .dealloc) = some ⟨"Object", "dealloc"⟩)
    (hrqd : interfaceof irq.clazz (.object .dealloc) = some ⟨"Object", "dealloc"⟩)
    (hssd : interfaceof iss.clazz (.object .dealloc) = some ⟨"Object", "dealloc"⟩)
    (h1 : t.locals.thread ≠ self) (h2 : t.request ≠ self) (h3 : t.session ≠ self)
    (h4 : t.request ≠ t.locals.thread) (h5 : t.session ≠ t.locals.thread)
    (h6 : t.session ≠ t.request) :
    ∃ s' own, URLSessionTask.dealloc (release (fuel + 1)) s self = .ok s'
      ∧ s'.trace = s.trace ++ [.dealloc "URLSessionTask" self] ++ own
          ++ [.dealloc "Object" self]
      ∧ own = (if t.error ≠ NULL then [.free t.error] else [])
          ++ releaseEvents ith t.locals.thread ++ releaseEvents irq t.request
          ++ releaseEvents iss t.session
      ∧ own.filter Event.isRelease
          = [.release t.locals.thread, .release t.request, .release t.session]
      ∧ (.dealloc "Object" self) ∉ own
      ∧ (t.error ≠ NULL → own.head? = some (.free t.error) ∧ s'.buffers t.error = none)
      ∧ (t.error = NULL → s'.buffers = s.buffers)
      ∧ s'.trace.getLast? = some (.dealloc "Object" self) := by
  refine ⟨_, _, URLSessionTask.dealloc_eq fuel s self c n t ith irq iss hself hobj hth hrq hss
    hthn hrqn hssn hthd hrqd hssd h1 h2 h3 h4 h5 h6, ?_, rfl, ?_, ?_, ?_, ?_, ?_⟩
  · by_cases he : t.error = NULL <;> simp [afterRelease, free, he]
  · by_cases he : t.error = NULL <;>
      simp [he, List.filter_append, releaseEvents_filter, Event.isRelease]
  · by_cases he : t.error = NULL <;>
      simp [he, releaseEvents, Ne.symm h1, Ne.symm h2, Ne.symm h3]
  · intro he
    simp [he, afterRelease, free]
  · intro he
    simp [he, afterRelease]
  · simp

/-- C5 on the task of `taskState`: the error buffer at 5 is freed, the thread at 4
is released (and, its count being 1, deallocated), the request at 2 and the
session at 3 are released, and `Object`'s `dealloc` on the task comes last. -/
theorem dealloc_leaf_first_witness :
    ∃ s', URLSessionTask.dealloc (release 1) taskState 1 = .ok s'
      ∧ s'.trace = [.dealloc "URLSessionTask" 1, .free 5, .release 4, .dealloc "Object" 4,
          .free 4, .release 2, .release 3, .dealloc "Object" 1] := by
  obtain ⟨s', own, h, ht, ho, -⟩ := dealloc_leaf_first 0 taskState 1 __URLSessionTask 1
    { error := 5, request := 2, session := 3, completion := none, state := .TASK_SUSPENDED,
      locals := { thread := 4, handle := NULL, httpHeaders := NULL } }
    ⟨_Thread, 1, .thread (some ⟨"URLSessionTask", "run"⟩) 1⟩
    ⟨_URLRequest, 2, .request
      { httpBody := NULL, httpHeaders := NULL, httpMethod := .other 0, url := NULL }⟩
    ⟨_URLSession, 2, .session NULL⟩
    rfl (by decide) rfl rfl rfl (by decide) (by decide) (by decide) rfl rfl rfl
    (by decide) (by decide) (by decide) (by decide) (by decide) (by decide)
  refine ⟨s', h, ?_⟩
  rw [ht, ho]
  rfl

/-! ## URLSessionTask: what the other functions leave alone -/

theorem Event.countsBelow_mono {e : Event} {b b' : ident} (h : b ≤ b')
    (he : ¬ e.countsBelow b') : ¬ e.countsBelow b := by
  cases e <;> simp only [Event.countsBelow, not_false_eq_true] at he ⊢ <;>
    exact fun h' => he (Nat.lt_of_lt_of_le h' h)

theorem Frame.refl (b : ident) (own : List ident) (s : Runtime) : Frame b own s s :=
  ⟨Nat.le_refl _, fun _ _ _ => rfl, [], by simp, by simp⟩

theorem Frame.trans {b : ident} {own : List ident} {s s' s'' : Runtime}
    (h : Frame b own s s') (h' : Frame b own s' s'') : Frame b own s s'' := by
  obtain ⟨hb, hh, ev, ht, he⟩ := h
  obtain ⟨hb', hh', ev', ht', he'⟩ := h'
  refine ⟨Nat.le_trans hb hb', fun a ha hn => ?_, ev ++ ev', ?_, ?_⟩
  · rw [hh' a ha hn, hh a ha hn]
  · rw [ht', ht, List.append_assoc]
  · intro e hm
    rcases List.mem_append.1 hm with hm | hm
    · exact he e hm
    · exact he' e hm

theorem Frame.mono {b b' : ident} {own own' : List ident} {s s' : Runtime}
    (h : Frame b' own s s') (hb : b ≤ b') (hsub : ∀ a, a ∈ own → a ∈ own') :
    Frame b own' s s' := by
  obtain ⟨hk, hh, ev, ht, he⟩ := h
  exact ⟨hk, fun a ha hn => hh a (Nat.lt_of_lt_of_le ha hb) (fun hm => hn (hsub a hm)), ev, ht,
    fun e hm => Event.countsBelow_mono hb (he e hm)⟩

theorem Frame.log (b : ident) (own : List ident) (s : Runtime) (e : Event)
    (he : ¬ e.countsBelow b) : Frame b own s (s.log e) :=
  ⟨Nat.le_refl _, fun _ _ _ => rfl, [e], rfl, by simpa using he⟩

theorem Frame.store (b : ident) (own : List ident) (s : Runtime) (p : ident) (i : Instance)
    (hp : p ∈ own ∨ b ≤ p) : Frame b own s (s.store p i) := by
  refine ⟨Nat.le_refl _, fun a ha hn => ?_, [], by simp, by simp⟩
  have : a ≠ p := by
    rintro rfl
    rcases hp with hp | hp
    · exact hn hp
    · exact absurd ha (Nat.not_lt.2 hp)
  simp [this]

theorem Frame.setTask {s s' : Runtime} {self : ident} {f : URLSessionTask → URLSessionTask}
    (b : ident) (h : s.setTask self f = .ok s') : Frame b [self] s s' := by
  unfold Runtime.setTask at h
  split at h
  · cases h; exact Frame.store _ _ _ _ _ (Or.inl (by simp))
  · cases h; exact Frame.store _ _ _ _ _ (Or.inl (by simp))
  · cases h

theorem Frame.curl_easy_init (b : ident) (own : List ident) (s : Runtime) :
    Frame b own s (curl_easy_init s).2 := by
  unfold Objectively.curl_easy_init
  split
  · exact ⟨Nat.le_succ _, fun _ _ _ => rfl, [.curl_easy_init s.brk], rfl,
      by simp [Event.countsBelow]⟩
  · exact Frame.refl _ _ _

theorem Frame.curl_slist_append (b : ident) (own : List ident) (s : Runtime) (list : ident)
    (chars : String) : Frame b own s (curl_slist_append s list chars).2 := by
  unfold Objectively.curl_slist_append
  split
  · exact Frame.log _ _ _ _ (by simp [Event.countsBelow])
  · split
    · exact ⟨Nat.le_succ _, fun _ _ _ => rfl, [.curl_slist_append s.brk chars], rfl,
        by simp [Event.countsBelow]⟩
    · exact Frame.refl _ _ _

theorem curl_slist_append_heap (s : Runtime) (list : ident) (chars : String) :
    (curl_slist_append s list chars).2.heap = s.heap := by
  unfold Objectively.curl_slist_append
  split
  · rfl
  · split <;> rfl

theorem Frame.afterRelease (b : ident) (own : List ident) (s : Runtime) (p : ident)
    (i : Instance) (hp : b ≤ p) : Frame b own s (afterRelease s p i) := by
  refine ⟨Nat.le_refl _, fun a ha _ => ?_, releaseEvents i p, rfl, ?_⟩
  · exact afterRelease_heap_ne _ _ _ (fun h => absurd (h ▸ ha) (Nat.not_lt.2 hp))
  · intro e he
    unfold releaseEvents at he
    split at he <;> simp at he <;> rcases he with rfl | rfl | rfl <;>
      simp [Event.countsBelow, hp]

theorem bind_eq_ok {α β : Type} {x : Except Fault α} {f : α → Except Fault β} {b : β}
    (h : (x >>= f) = .ok b) : ∃ a, x = .ok a ∧ f a = .ok b := by
  cases x with
  | error e => cases h
  | ok a => exact ⟨a, rfl, h⟩

theorem Frame.cancel {s s' : Runtime} {self : ident} (b : ident)
    (h : URLSessionTask.cancel s self = .ok s') : Frame b [self] s s' := by
  unfold URLSessionTask.cancel at h
  obtain ⟨this, -, h⟩ := bind_eq_ok h
  split at h
  · exact Frame.setTask b h
  · cases h; exact Frame.refl _ _ _

theorem Frame.resume {s s' : Runtime} {self : ident} (b : ident)
    (h : URLSessionTask.resume s self = .ok s') : Frame b [self] s s' := by
  unfold URLSessionTask.resume at h
  obtain ⟨this, -, h⟩ := bind_eq_ok h
  split at h
  · obtain ⟨s1, h1, h⟩ := bind_eq_ok h
    unfold Thread.start at h1
    split at h1
    · cases h1
    · cases h1
      exact (Frame.log _ _ _ _ (by simp [Event.countsBelow])).trans (Frame.setTask b h)
  · cases h; exact Frame.refl _ _ _

theorem Frame.copy {s s' : Runtime} {self r : ident} (b : ident)
    (h : URLSessionTask.copy s self = .ok (r, s')) : Frame b [self] s s' := by
  cases h; exact Frame.refl _ _ _

theorem Frame.teardown {s s' : Runtime} {self : ident} (b : ident)
    (h : URLSessionTask.teardown s self = .ok s') : Frame b [self] s s' := by
  unfold URLSessionTask.teardown at h
  obtain ⟨this, -, h⟩ := bind_eq_ok h
  obtain ⟨this', -, h⟩ := bind_eq_ok h
  cases h
  have f1 : Frame b [self] s (if this.locals.handle ≠ NULL then
      s.log (.curl_easy_cleanup this.locals.handle) else s) := by
    by_cases hc : this.locals.handle ≠ NULL
    · rw [if_pos hc]; exact Frame.log _ _ _ _ (by simp [Event.countsBelow])
    · rw [if_neg hc]; exact Frame.refl _ _ _
  by_cases hc : this'.locals.httpHeaders ≠ NULL
  · rw [if_pos hc]; exact f1.trans (Frame.log _ _ _ _ (by simp [Event.countsBelow]))
  · rw [if_neg hc]; exact f1

theorem Frame.httpHeaders_enumerator {fuel : Nat} {s : Runtime} {obj key headers : ident}
    {r : Bool × ident × Runtime} (hnull : s.heap NULL = none)
    (h : URLSessionTask.httpHeaders_enumerator (release (fuel + 1)) s obj key headers = .ok r) :
    Frame s.brk [] s r.2.2 := by
  unfold URLSessionTask.httpHeaders_enumerator at h
  obtain ⟨kc, -, h⟩ := bind_eq_ok h
  obtain ⟨oc, -, h⟩ := bind_eq_ok h
  by_cases hm : s.brk < s.limit
  · simp only [_alloc, hm, if_true] at h
    obtain ⟨x, hx, h⟩ := bind_eq_ok h
    simp only [String.initWithFormat, if_true] at hx
    cases hx
    try dsimp only at h
    obtain ⟨hc, -, h⟩ := bind_eq_ok h
    try dsimp only at h
    obtain ⟨sr, hr, h⟩ := bind_eq_ok h
    cases h
    have hheap : (Objectively.curl_slist_append
        (({ s with
            heap := fun a => if a = s.brk then some ⟨__String, 1, .zeroed⟩ else s.heap a
            brk := s.brk + 1
            trace := s.trace ++ [.alloc s.brk __String] } : Runtime).store s.brk
          ⟨__String, 1, .string (kc ++ ": " ++ oc)⟩) headers hc).2.heap s.brk
        = some ⟨__String, 1, .string (kc ++ ": " ++ oc)⟩ := by
      rw [curl_slist_append_heap]; simp
    rw [release_root fuel hheap (Nat.le_refl _) rfl] at hr
    cases hr
    refine Frame.trans ?_ (Frame.trans (Frame.store _ _ _ _ _ (Or.inr (Nat.le_refl _)))
      (Frame.trans (Frame.curl_slist_append _ _ _ _ _)
        (Frame.afterRelease _ _ _ _ _ (Nat.le_refl _))))
    refine ⟨Nat.le_succ _, fun a ha _ => ?_, [.alloc s.brk __String], rfl, ?_⟩
    · simp [Nat.ne_of_lt ha]
    · simp [Event.countsBelow]
  · simp only [_alloc, hm, if_false] at h
    obtain ⟨x, hx, h⟩ := bind_eq_ok h
    simp [String.initWithFormat, hnull] at hx

theorem Frame.heap_null {b : ident} {own : List ident} {s s' : Runtime} (h : Frame b own s s')
    (hb : 0 < b) (hown : NULL ∉ own) (hnull : s.heap NULL = none) : s'.heap NULL = none := by
  rw [h.2.1 NULL hb hown]; exact hnull

theorem Frame.foldlM_enumerator (fuel : Nat) (b : ident) (hb : 0 < b) :
    ∀ (entries : List (ident × ident)) (acc r : ident × Runtime),
      b ≤ acc.2.brk → acc.2.heap NULL = none →
      entries.foldlM
        (fun (acc : ident × Runtime) (entry : ident × ident) => do
          let (_, data, s) ← URLSessionTask.httpHeaders_enumerator (release (fuel + 1))
            acc.2 entry.1 entry.2 acc.1
          pure (data, s))
        acc = .ok r →
      Frame b [] acc.2 r.2 := by
  intro entries
  induction entries with
  | nil =>
    intro acc r _ _ h
    cases h
    exact Frame.refl _ _ _
  | cons e es ih =>
    intro acc r hle hnull h
    rw [List.foldlM_cons] at h
    obtain ⟨acc', hstep, h⟩ := bind_eq_ok h
    obtain ⟨x, hx, hstep⟩ := bind_eq_ok hstep
    cases hstep
    have f1 : Frame b [] acc.2 x.2.2 :=
      (Frame.httpHeaders_enumerator hnull hx).mono hle (fun _ h => h)
    exact f1.trans (ih _ r (Nat.le_trans hle f1.1) (f1.heap_null hb (by simp) hnull) h)

theorem Frame.enumerateObjectsAndKeys {fuel : Nat} {s : Runtime} {dict data : ident}
    {r : ident × Runtime} (b : ident) (hb : 0 < b) (hle : b ≤ s.brk)
    (hnull : s.heap NULL = none)
    (h : Dictionary.enumerateObjectsAndKeys
      (URLSessionTask.httpHeaders_enumerator (release (fuel + 1))) s dict data = .ok r) :
    Frame b [] s r.2 := by
  unfold Dictionary.enumerateObjectsAndKeys at h
  split at h
  · exact Frame.foldlM_enumerator fuel b hb _ (data, s) r hle hnull h
  · cases h

theorem Runtime.setTask_ne_null {s s' : Runtime} {self : ident}
    {f : URLSessionTask → URLSessionTask} (hnull : s.heap NULL = none)
    (h : s.setTask self f = .ok s') : self ≠ NULL := by
  rintro rfl
  simp [Runtime.setTask, hnull] at h

theorem Frame.ite_enumerate {fuel : Nat} {s : Runtime} {headers data self : ident}
    {r : ident × Runtime} (b : ident) (hb : 0 < b) (hle : b ≤ s.brk)
    (hnull : s.heap NULL = none)
    (h : (if headers ≠ NULL then
        Dictionary.enumerateObjectsAndKeys
          (URLSessionTask.httpHeaders_enumerator (release (fuel + 1))) s headers data
      else .ok (data, s)) = .ok r) :
    Frame b [self] s r.2 := by
  split at h
  · exact (Frame.enumerateObjectsAndKeys b hb hle hnull h).mono (Nat.le_refl _) (by simp)
  · cases h; exact Frame.refl _ _ _

theorem Frame.setup {fuel : Nat} {s s' : Runtime} {self : ident} (hb : 0 < s.brk)
    (hnull : s.heap NULL = none)
    (h : URLSessionTask.setup (release (fuel + 1)) s self = .ok s') :
    Frame s.brk [self] s s' := by
  unfold URLSessionTask.setup at h
  have f0 := Frame.curl_easy_init s.brk [self] s
  have n0 : (Objectively.curl_easy_init s).2.heap NULL = none := by
    unfold Objectively.curl_easy_init; split <;> exact hnull
  generalize Objectively.curl_easy_init s = ci at h f0 n0
  obtain ⟨handle, s0⟩ := ci
  dsimp only at h f0 n0
  obtain ⟨s1, h1, h⟩ := bind_eq_ok h
  have hself := Runtime.setTask_ne_null n0 h1
  have hown : NULL ∉ [self] := by simp [Ne.symm hself]
  have f1 := f0.trans (Frame.setTask s.brk h1)
  obtain ⟨u, hu, h⟩ := bind_eq_ok h
  obtain ⟨this, -, h⟩ := bind_eq_ok h
  obtain ⟨request, -, h⟩ := bind_eq_ok h
  obtain ⟨s3, h3, h⟩ := bind_eq_ok h
  have nc : ∀ (hd : ident) (o : String), ¬ (Event.curl_easy_setopt hd o).countsBelow s.brk := by
    intro hd o; simp [Event.countsBelow]
  have f3 : Frame s.brk [self] s s3 := by
    refine f1.trans ?_
    split at h3
    · split at h3
      · cases h3
        exact (Frame.log _ _ _ _ (nc _ _)).trans ((Frame.log _ _ _ _ (nc _ _)).trans
          ((Frame.log _ _ _ _ (nc _ _)).trans (Frame.log _ _ _ _ (nc _ _))))
      · cases h3
    · cases h3
      exact (Frame.log _ _ _ _ (nc _ _)).trans (Frame.log _ _ _ _ (nc _ _))
  obtain ⟨headers, -, h⟩ := bind_eq_ok h
  obtain ⟨d1, hd1, h⟩ := bind_eq_ok h
  have f4 : Frame s.brk [self] s d1.2 :=
    f3.trans (Frame.ite_enumerate s.brk hb f3.1 (f3.heap_null hb hown hnull) hd1)
  obtain ⟨this2, -, h⟩ := bind_eq_ok h
  obtain ⟨request2, -, h⟩ := bind_eq_ok h
  obtain ⟨d2, hd2, h⟩ := bind_eq_ok h
  have f5 : Frame s.brk [self] s d2.2 :=
    f4.trans (Frame.ite_enumerate s.brk hb f4.1 (f4.heap_null hb hown hnull) hd2)
  obtain ⟨this3, -, h⟩ := bind_eq_ok h
  obtain ⟨s6, h6, h⟩ := bind_eq_ok h
  have f6 : Frame s.brk [self] s s6 :=
    f5.trans ((Frame.log _ _ _ _ (nc _ _)).trans (Frame.setTask s.brk h6))
  obtain ⟨this4, -, h⟩ := bind_eq_ok h
  obtain ⟨request4, -, h⟩ := bind_eq_ok h
  obtain ⟨chars, -, h⟩ := bind_eq_ok h
  cases h
  refine f6.trans (Frame.trans ?_ (Frame.log _ _ _ _ (nc _ _)))
  split
  · exact Frame.log _ _ _ _ (nc _ _)
  · exact Frame.log _ _ _ _ (nc _ _)
  · exact Frame.log _ _ _ _ (nc _ _)
  · exact Frame.log _ _ _ _ (nc _ _)
  · exact Frame.refl _ _ _

theorem Frame.run {fuel : Nat} {performed : Bool} {s : Runtime} {thread self : ident}
    {c : Class} {n : Nat} {fn : Option Fn} {r : ident × Runtime} (hb : 0 < s.brk)
    (hnull : s.heap NULL = none) (hthread : s.heap thread = some ⟨c, n, .thread fn self⟩)
    (h : URLSessionTask.run (release (fuel + 1)) performed s thread = .ok r) :
    Frame s.brk [self] s r.2 := by
  unfold URLSessionTask.run at h
  simp only [hthread] at h
  obtain ⟨self', hs', h⟩ := bind_eq_ok h
  cases hs'
  obtain ⟨f, -, h⟩ := bind_eq_ok h
  obtain ⟨s1, h1, h⟩ := bind_eq_ok h
  have f1 : Frame s.brk [self] s s1 := by
    split at h1
    · exact Frame.setup hb hnull h1
    · cases h1
  obtain ⟨this, -, h⟩ := bind_eq_ok h
  obtain ⟨u, -, h⟩ := bind_eq_ok h
  obtain ⟨g, -, h⟩ := bind_eq_ok h
  obtain ⟨s2, h2, h⟩ := bind_eq_ok h
  have f2 : Frame s.brk [self] s s2 := by
    refine f1.trans ((Frame.log _ _ _ (.curl_easy_perform this.locals.handle)
      (by simp [Event.countsBelow])).trans ?_)
    split at h2
    · exact Frame.teardown s.brk h2
    · cases h2
  obtain ⟨this', -, h⟩ := bind_eq_ok h
  cases h
  refine f2.trans ?_
  dsimp only
  split
  · exact Frame.log _ _ _ _ (by simp [Event.countsBelow])
  · exact Frame.refl _ _ _

theorem Frame.untouched {b p : ident} {own : List ident} {u u' : Runtime}
    (h : Frame b own u u') (hp : p < b) (hown : p ∉ own) : Untouched p u u' := by
  obtain ⟨-, hh, ev, ht, he⟩ := h
  refine ⟨hh p hp hown, ev, ht, fun hm => ?_, fun hm => ?_⟩
  · exact he _ hm hp
  · exact he _ hm hp

theorem releaseEvents_filter_isCount (i : Instance) (p : ident) :
    (releaseEvents i p).filter Event.isCount = [.release p] := by
  unfold releaseEvents
  split <;> simp [Event.isCount, Event.isRelease, Event.isRetain]

theorem dealloc_counts (fuel : Nat) (u : Runtime) (self : ident) (c : Class)
    (n : Nat) (t : URLSessionTask) (ith irq iss : Instance)
    (hself : u.heap self = some ⟨c, n, .task t⟩) (hobj : _Object ∈ c.chain)
    (hth : u.heap t.locals.thread = some ith) (hrq : u.heap t.request = some irq)
    (hss : u.heap t.session = some iss)
    (hthn : 1 ≤ ith.referenceCount) (hrqn : 1 ≤ irq.referenceCount)
    (hssn : 1 ≤ iss.referenceCount)
    (hthd : interfaceof ith.clazz (.object .dealloc) = some ⟨"Object", "dealloc"⟩)
    (hrqd : interfaceof irq.clazz (.object .dealloc) = some ⟨"Object", "dealloc"⟩)
    (hssd : interfaceof iss.clazz (.object .dealloc) = some ⟨"Object", "dealloc"⟩)
    (h1 : t.locals.thread ≠ self) (h2 : t.request ≠ self) (h3 : t.session ≠ self)
    (h4 : t.request ≠ t.locals.thread) (h5 : t.session ≠ t.locals.thread)
    (h6 : t.session ≠ t.request) :
    ∃ u', URLSessionTask.dealloc (release (fuel + 1)) u self = .ok u'
      ∧ u'.heap t.locals.thread = (if ith.referenceCount = 1 then none
          else some { ith with referenceCount := ith.referenceCount - 1 })
      ∧ u'.heap t.request = (if irq.referenceCount = 1 then none
          else some { irq with referenceCount := irq.referenceCount - 1 })
      ∧ u'.heap t.session = (if iss.referenceCount = 1 then none
          else some { iss with referenceCount := iss.referenceCount - 1 })
      ∧ (u'.trace.drop u.trace.length).filter Event.isCount
          = [.release t.locals.thread, .release t.request, .release t.session] := by
  refine ⟨_, URLSessionTask.dealloc_eq fuel u self c n t ith irq iss hself hobj hth hrq hss
    hthn hrqn hssn hthd hrqd hssd h1 h2 h3 h4 h5 h6, ?_, ?_, ?_, ?_⟩
  · simp [afterRelease, Ne.symm h4, Ne.symm h5]
  · simp [afterRelease, Ne.symm h6]
  · simp [afterRelease]
  · have ht : ∀ x : Runtime, (afterRelease (afterRelease (afterRelease x t.locals.thread ith)
        t.request irq) t.session iss).trace = x.trace ++ (releaseEvents ith t.locals.thread
          ++ releaseEvents irq t.request ++ releaseEvents iss t.session) := by
      intro x; simp [afterRelease]
    by_cases he : t.error = NULL <;>
      simp [he, ht, free, List.filter_append, releaseEvents_filter_isCount, Event.isCount,
        Event.isRelease, Event.isRetain]

/-! ## URLSessionTask: balance of retain and release -/

/-- C6. Retain and release calls balance over a task's lifetime.  A successful
`initWithRequestInSession` retains the request and the session once each (their
counts go up by one; these are its only `retain` or `release` calls) and stores a
`Thread` it allocates with count 1.  `dealloc` of that task releases the thread,
the request and the session once each and makes no other such call: run right
after the initializer it brings the counts of the request and of the session back
to what they were and deallocates the thread; run in any later state it lowers
each of the three counts by one.  No other function of `URLSessionTask.c` (`copy`,
`cancel`, `resume`, `setup`, `teardown`, `run`, `httpHeaders_enumerator`) retains,
releases or changes an instance that existed when it was entered, other than the
fields of the task itself. -/
theorem retain_release_balance (fuel : Nat) (objectInit : ObjectInit) (s s1 : Runtime)
    (self r request session : ident) (completion : Option Fn) (inst irq iss : Instance)
    (c : Class) (n : Nat) (fs : Fields) (t0 : URLSessionTask)
    (hself : s.heap self = some inst) (hobj : _Object ∈ inst.clazz.chain)
    (hreq : request ≠ NULL) (hses : session ≠ NULL)
    (hinit : objectInit s self = (r, s1)) (hr : r ≠ NULL)
    (hlive : s1.heap r = some ⟨c, n, fs⟩) (hfs : s1.task r = .ok t0)
    (hc : _Object ∈ c.chain)
    (hrq : s1.heap request = some irq) (hss : s1.heap session = some iss)
    (hrqn : 1 ≤ irq.referenceCount) (hssn : 1 ≤ iss.referenceCount)
    (hrqd : interfaceof irq.clazz (.object .dealloc) = some ⟨"Object", "dealloc"⟩)
    (hssd : interfaceof iss.clazz (.object .dealloc) = some ⟨"Object", "dealloc"⟩)
    (d1 : request ≠ r) (d2 : session ≠ r) (d3 : session ≠ request)
    (b1 : s1.brk ≠ r) (b2 : s1.brk ≠ request) (b3 : s1.brk ≠ session)
    (hmem : s1.brk + 1 < s1.limit) :
    (∃ s' s'',
      URLSessionTask.initWithRequestInSession objectInit s self request session completion
        = .ok (r, s')
      ∧ s'.referenceCount request = some (irq.referenceCount + 1)
      ∧ s'.referenceCount session = some (iss.referenceCount + 1)
      ∧ s'.heap s1.brk = some ⟨_Thread, 1, .thread (some ⟨"URLSessionTask", "run"⟩) r⟩
      ∧ s'.task r = .ok (URLSessionTask.initialized t0 s1.brk (s1.brk + 1) request session
          completion)
      ∧ (s'.trace.drop s1.trace.length).filter Event.isCount
          = [.retain request, .retain session]
      ∧ URLSessionTask.dealloc (release (fuel + 1)) s' r = .ok s''
      ∧ s''.referenceCount request = some irq.referenceCount
      ∧ s''.referenceCount session = some iss.referenceCount
      ∧ s''.heap s1.brk = none
      ∧ (s''.trace.drop s'.trace.length).filter Event.isCount
          = [.release s1.brk, .release request, .release session])
    ∧ (∀ (u : Runtime) (c' : Class) (n' : Nat) (t : URLSessionTask) (jth jrq jss : Instance),
        u.heap r = some ⟨c', n', .task t⟩ → _Object ∈ c'.chain →
        u.heap t.locals.thread = some jth → u.heap t.request = some jrq →
        u.heap t.session = some jss →
        1 ≤ jth.referenceCount → 1 ≤ jrq.referenceCount → 1 ≤ jss.referenceCount →
        interfaceof jth.clazz (.object .dealloc) = some ⟨"Object", "dealloc"⟩ →
        interfaceof jrq.clazz (.object .dealloc) = some ⟨"Object", "dealloc"⟩ →
        interfaceof jss.clazz (.object .dealloc) = some ⟨"Object", "dealloc"⟩ →
        t.locals.thread ≠ r → t.request ≠ r → t.session ≠ r →
        t.request ≠ t.locals.thread → t.session ≠ t.locals.thread → t.session ≠ t.request →
        ∃ u', URLSessionTask.dealloc (release (fuel + 1)) u r = .ok u'
          ∧ u'.heap t.locals.thread = (if jth.referenceCount = 1 then none
              else some { jth with referenceCount := jth.referenceCount - 1 })
          ∧ u'.heap t.request = (if jrq.referenceCount = 1 then none
              else some { jrq with referenceCount := jrq.referenceCount - 1 })
          ∧ u'.heap t.session = (if jss.referenceCount = 1 then none
              else some { jss with referenceCount := jss.referenceCount - 1 })
          ∧ (u'.trace.drop u.trace.length).filter Event.isCount
              = [.release t.locals.thread, .release t.request, .release t.session])
    ∧ (∀ (u u' : Runtime) (task p x : ident), 0 < u.brk → u.heap NULL = none →
        p < u.brk → p ≠ task →
        (URLSessionTask.copy u task = .ok (x, u') → Untouched p u u')
        ∧ (URLSessionTask.cancel u task = .ok u' → Untouched p u u')
        ∧ (URLSessionTask.resume u task = .ok u' → Untouched p u u')
        ∧ (URLSessionTask.setup (release (fuel + 1)) u task = .ok u' → Untouched p u u')
        ∧ (URLSessionTask.teardown u task = .ok u' → Untouched p u u')
        ∧ (∀ (performed : Bool) (thread : ident) (ct : Class) (nt : Nat) (fn : Option Fn),
            u.heap thread = some ⟨ct, nt, .thread fn task⟩ →
            URLSessionTask.run (release (fuel + 1)) performed u thread = .ok (x, u') →
            Untouched p u u')
        ∧ (∀ (obj key headers : ident) (b : Bool),
            URLSessionTask.httpHeaders_enumerator (release (fuel + 1)) u obj key headers
              = .ok (b, x, u') →
            Untouched p u u')) := by
  refine ⟨?_, ?_, ?_⟩
  · obtain ⟨s', hi, h1, h2, h3, h4, -, h6⟩ := URLSessionTask.init_ok objectInit s s1 self r
      request session completion inst irq iss c n fs t0 hself hobj hreq hses hinit hr hlive hfs
      hrq hss d1 d2 d3 b1 b2 b3 hmem
    obtain ⟨s'', hd, k1, k2, k3, k4⟩ := dealloc_counts fuel s' r c n
      (URLSessionTask.initialized t0 s1.brk (s1.brk + 1) request session completion)
      ⟨_Thread, 1, .thread (some ⟨"URLSessionTask", "run"⟩) r⟩
      { irq with referenceCount := irq.referenceCount + 1 }
      { iss with referenceCount := iss.referenceCount + 1 }
      h1 hc h4 h2 h3 (Nat.le_refl _) (Nat.le_add_left _ _) (Nat.le_add_left _ _) rfl hrqd hssd
      b1 d1 d2 (Ne.symm b2) (Ne.symm b3) d3
    have e1 : irq.referenceCount + 1 ≠ 1 := by omega
    have e2 : iss.referenceCount + 1 ≠ 1 := by omega
    refine ⟨s', s'', hi, by simp [Runtime.referenceCount, h2],
      by simp [Runtime.referenceCount, h3], h4, by simp [Runtime.task, h1], ?_, hd, ?_, ?_, ?_,
      k4⟩
    · rw [h6, List.drop_left]
      simp [Event.isCount, Event.isRelease, Event.isRetain]
    · have := k2
      simp only [URLSessionTask.initialized, e1, if_false] at this
      simp [Runtime.referenceCount, this]
    · have := k3
      simp only [URLSessionTask.initialized, e2, if_false] at this
      simp [Runtime.referenceCount, this]
    · simpa [URLSessionTask.initialized] using k1
  · intro u c' n' t jth jrq jss g1 g2 g3 g4 g5 g6 g7 g8 g9 g10 g11 g12 g13 g14 g15 g16 g17
    exact dealloc_counts fuel u r c' n' t jth jrq jss g1 g2 g3 g4 g5 g6 g7 g8 g9 g10 g11 g12 g13
      g14 g15 g16 g17
  · intro u u' task p x hb hnull hp hne
    have hown : p ∉ [task] := by simp [hne]
    refine ⟨fun h => (Frame.copy u.brk h).untouched hp hown,
      fun h => (Frame.cancel u.brk h).untouched hp hown,
      fun h => (Frame.resume u.brk h).untouched hp hown,
      fun h => (Frame.setup hb hnull h).untouched hp hown,
      fun h => (Frame.teardown u.brk h).untouched hp hown,
      fun performed thread ct nt fn hth h => (Frame.run hb hnull hth h).untouched hp hown,
      fun obj key headers b h => (Frame.httpHeaders_enumerator hnull h).untouched hp (by simp)⟩

/-- C6 on the task of `freshTaskState`: the initializer takes the counts of the
request and of the session from 1 to 2, `dealloc` takes them back to 1 and
deallocates the thread allocated at address 4. -/
theorem retain_release_balance_witness :
    ∃ s' s'',
      URLSessionTask.initWithRequestInSession Object.init freshTaskState 1 2 3 none
        = .ok (1, s')
      ∧ s'.referenceCount 2 = some 2 ∧ s'.referenceCount 3 = some 2
      ∧ s'.referenceCount 4 = some 1
      ∧ URLSessionTask.dealloc (release 1) s' 1 = .ok s''
      ∧ s''.referenceCount 2 = some 1 ∧ s''.referenceCount 3 = some 1
      ∧ s''.heap 4 = none
      ∧ (s''.trace.drop s'.trace.length).filter Event.isCount
          = [.release 4, .release 2, .release 3] := by
  obtain ⟨s', s'', h1, h2, h3, h4, -, -, h7, h8, h9, h10, h11⟩ :=
    (retain_release_balance 0 Object.init freshTaskState freshTaskState 1 1 2 3 none
      ⟨__URLSessionTask, 1, .zeroed⟩
      ⟨_URLRequest, 1, .request
        { httpBody := NULL, httpHeaders := NULL, httpMethod := .other 0, url := NULL }⟩
      ⟨_URLSession, 1, .session NULL⟩ __URLSessionTask 1 .zeroed URLSessionTask.zeroed
      rfl (by decide) (by decide) (by decide) rfl (by decide) rfl rfl (by decide) rfl rfl
      (by decide) (by decide) rfl rfl (by decide) (by decide) (by decide) (by decide)
      (by decide) (by decide) (by decide)).1
  have h4' : s'.heap 4
      = some ⟨_Thread, 1, .thread (some ⟨"URLSessionTask", "run"⟩) 1⟩ := h4
  exact ⟨s', s'', h1, h2, h3, by simp [Runtime.referenceCount, h4'], h7, h8, h9, h10, h11⟩

/-! ## Allocation -/

/-- The assignment of `greeting` keeps the class stamp of every instance. -/
theorem Runtime.setGreeting_classof {s s' : Runtime} {self : ident} {g : Option String}
    (h : s.setGreeting self g = .ok s') (a : ident) : classof s' a = classof s a := by
  unfold Runtime.setGreeting at h
  split at h
  · next c n hh =>
    cases h
    by_cases ha : a = self
    · subst ha; simp [classof, hh]
    · simp [classof, ha]
  · next c n g0 hh =>
    cases h
    by_cases ha : a = self
    · subst ha; simp [classof, hh]
    · simp [classof, ha]
  · cases h

/-- C9. For every class `T`, a successful `alloc(T)` returns a non-null instance
stamped with `T` (`classof` is exactly `T`) whose reference count is 1, and the
stamp is still `T` after a successful initializer: `initWithGreeting` applied to
the fresh instance of any class that extends `Object` returns it stamped with
`T`, and so does `initWithRequestInSession` given a live request and session;
whatever `Object`'s `init` does, `initWithGreeting` leaves the stamp of the
instance it returns as `Object`'s `init` left it.  In particular
`helloWithGreeting` returns an instance stamped `_Hello`, and `alloc(String)` one
stamped `__String`, as the test asserts. -/
theorem alloc_stamps_class (s : Runtime) (T : Class) (hmem : s.brk < s.limit)
    (hbrk : s.brk ≠ NULL) :
    (_alloc s T).1 ≠ NULL
    ∧ classof (_alloc s T).2 (_alloc s T).1 = some T
    ∧ (_alloc s T).2.referenceCount (_alloc s T).1 = some 1
    ∧ (∀ greeting, _Object ∈ T.chain →
        ∃ s', Hello.initWithGreeting Object.init (_alloc s T).2 (_alloc s T).1 greeting
            = .ok ((_alloc s T).1, s')
          ∧ classof s' (_alloc s T).1 = some T)
    ∧ (∀ (objectInit : ObjectInit) (st : Runtime) (self r : ident) (inst : Instance)
        (greeting : Option String) (s' : Runtime),
        st.heap self = some inst → _Object ∈ inst.clazz.chain →
        Hello.initWithGreeting objectInit st self greeting = .ok (r, s') →
        classof s' r = classof (objectInit st self).2 r)
    ∧ (∀ greeting, ∃ s', Hello.helloWithGreeting Object.init s greeting
            = .ok ((_alloc s _Hello).1, s')
          ∧ classof s' (_alloc s _Hello).1 = some _Hello)
    ∧ (∀ (request session : ident) (completion : Option Fn) (irq iss : Instance),
        _Object ∈ T.chain → request ≠ NULL → session ≠ NULL →
        s.heap request = some irq → s.heap session = some iss → session ≠ request →
        request ≠ s.brk → session ≠ s.brk → request ≠ s.brk + 1 → session ≠ s.brk + 1 →
        s.brk + 2 < s.limit →
        ∃ s', URLSessionTask.initWithRequestInSession Object.init (_alloc s T).2 (_alloc s T).1
            request session completion = .ok ((_alloc s T).1, s')
          ∧ classof s' (_alloc s T).1 = some T)
    ∧ classof (_alloc s __String).2 (_alloc s __String).1 = some __String := by
  have hk : ∀ C, (_alloc s C).2.brk = s.brk + 1 := by intro C; simp [_alloc, hmem]
  have hl : ∀ C, (_alloc s C).2.limit = s.limit := by intro C; simp [_alloc, hmem]
  have ho : ∀ C a, a ≠ s.brk → (_alloc s C).2.heap a = s.heap a := by
    intro C a ha; simp [_alloc, hmem, ha]
  have hp : ∀ C, (_alloc s C).1 = s.brk := by intro C; simp [_alloc, hmem]
  have hh : ∀ C, (_alloc s C).2.heap s.brk = some ⟨C, 1, .zeroed⟩ := by
    intro C; simp [_alloc, hmem]
  have hinit : ∀ C greeting, _Object ∈ C.chain →
      ∃ s', Hello.initWithGreeting Object.init (_alloc s C).2 (_alloc s C).1 greeting
          = .ok ((_alloc s C).1, s')
        ∧ classof s' (_alloc s C).1 = some C := by
    intro C greeting hC
    rw [hp C]
    refine ⟨(_alloc s C).2.store s.brk ⟨C, 1, .hello (some (greeting.getD "Hello World!"))⟩,
      ?_, by simp [classof]⟩
    rw [Hello.initWithGreeting_eq Object.init _ _ _ greeting (hh C) hC]
    simp [Object.init, hbrk, Runtime.setGreeting, hh C, Except.map]
  refine ⟨by rw [hp T]; exact hbrk, by simp [classof, hp T, hh T],
    by simp [Runtime.referenceCount, hp T, hh T], fun g hT => hinit T g hT, ?_, ?_, ?_,
    by simp [classof, hp __String, hh __String]⟩
  · intro objectInit st self r inst greeting s' hself hobj hres
    rw [Hello.initWithGreeting_eq objectInit st self inst greeting hself hobj] at hres
    split at hres
    · cases hset : (objectInit st self).2.setGreeting (objectInit st self).1
          (some (greeting.getD "Hello World!")) with
      | error e => simp [hset, Except.map] at hres
      | ok s2 =>
        simp only [hset, Except.map, Except.ok.injEq, Prod.mk.injEq] at hres
        obtain ⟨h1, h2⟩ := hres
        subst h2
        exact Runtime.setGreeting_classof hset r
    · cases hres
      rfl
  · intro greeting
    rw [Hello.helloWithGreeting_eq Object.init s greeting hmem]
    exact hinit _Hello greeting (by decide)
  · intro request session completion irq iss hT hreq hses hrq hss d3 e1 e2 e3 e4 hm2
    rw [hp T]
    obtain ⟨s', hi, h1, -⟩ := URLSessionTask.init_ok Object.init (_alloc s T).2 (_alloc s T).2
      s.brk s.brk request session completion ⟨T, 1, .zeroed⟩ irq iss T 1 .zeroed
      URLSessionTask.zeroed (hh T) hT hreq hses rfl hbrk (hh T)
      (by simp [Runtime.task, hh T]) (by rw [ho T _ e1]; exact hrq)
      (by rw [ho T _ e2]; exact hss) e1 e2 d3 (by rw [hk T]; exact Nat.succ_ne_self _)
      (by rw [hk T]; exact Ne.symm e3) (by rw [hk T]; exact Ne.symm e4)
      (by rw [hk T, hl T]; exact hm2)
    exact ⟨s', hi, by simp [classof, h1]⟩

/-- C9 in an empty state: the first allocation is at address 1; `alloc(String)` is
stamped `__String`, and a `Hello` made by the factory is stamped `_Hello`. -/
theorem alloc_stamps_class_witness :
    (_alloc emptyState __String).1 ≠ NULL
    ∧ classof (_alloc emptyState __String).2 (_alloc emptyState __String).1 = some __String
    ∧ (∃ s', Hello.helloWithGreeting Object.init emptyState (some "hi")
          = .ok ((_alloc emptyState _Hello).1, s')
        ∧ classof s' (_alloc emptyState _Hello).1 = some _Hello) :=
  have h := alloc_stamps_class emptyState __String (by decide) (by decide)
  ⟨h.1, h.2.1, h.2.2.2.2.2.1 (some "hi")⟩

/-! ## URLSessionTask: resume and cancel -/

/-- The fields of a block that reads as the task `t`. -/
theorem Runtime.task_cases {s : Runtime} {self : ident} {c : Class} {n : Nat} {fs : Fields}
    {t : URLSessionTask} (hself : s.heap self = some ⟨c, n, fs⟩) (hfs : s.task self = .ok t) :
    fs = .zeroed ∧ t = URLSessionTask.zeroed ∨ fs = .task t := by
  simp only [Runtime.task, hself] at hfs
  cases fs <;> simp_all

/-- An assignment to members of a task stores the updated members. -/
theorem Runtime.setTask_eq {s : Runtime} {self : ident} {c : Class} {n : Nat} {fs : Fields}
    {t : URLSessionTask} (f : URLSessionTask → URLSessionTask)
    (hself : s.heap self = some ⟨c, n, fs⟩) (hfs : s.task self = .ok t) :
    s.setTask self f = .ok (s.store self ⟨c, n, .task (f t)⟩) := by
  rcases Runtime.task_cases hself hfs with ⟨h1, h2⟩ | h1
  · subst h1 h2; simp [Runtime.setTask, hself]
  · subst h1; simp [Runtime.setTask, hself]

/-- What `resume` does to a suspended task whose thread is live. -/
theorem URLSessionTask.resume_suspended {s : Runtime} {self : ident} {c : Class} {n : Nat}
    {fs : Fields} {t : URLSessionTask} {ith : Instance}
    (hself : s.heap self = some ⟨c, n, fs⟩) (hfs : s.task self = .ok t)
    (hst : t.state = .TASK_SUSPENDED) (hth : s.heap t.locals.thread = some ith) :
    URLSessionTask.resume s self = .ok
      ((s.log (.start t.locals.thread)).store self
        ⟨c, n, .task { t with state := .TASK_RUNNING }⟩) := by
  have h1 : (s.log (.start t.locals.thread)).task self = .ok t := by
    simpa [Runtime.task] using hfs
  have h2 := Runtime.setTask_eq (s := s.log (.start t.locals.thread))
    (fun t => { t with state := .TASK_RUNNING }) (by simpa using hself) h1
  simp only [URLSessionTask.resume, hfs, hst, Thread.start, hth, bind, Except.bind, if_true]
  exact h2

/-- What `resume` does to a task that is not suspended. -/
theorem URLSessionTask.resume_other {s : Runtime} {self : ident} {t : URLSessionTask}
    (hfs : s.task self = .ok t) (hst : t.state ≠ .TASK_SUSPENDED) :
    URLSessionTask.resume s self = .ok s := by
  simp [URLSessionTask.resume, hfs, hst, bind, Except.bind, pure, Except.pure]

/-- What `cancel` does to a running or suspended task. -/
theorem URLSessionTask.cancel_active {s : Runtime} {self : ident} {c : Class} {n : Nat}
    {fs : Fields} {t : URLSessionTask}
    (hself : s.heap self = some ⟨c, n, fs⟩) (hfs : s.task self = .ok t)
    (hst : t.state = .TASK_RUNNING ∨ t.state = .TASK_SUSPENDED) :
    URLSessionTask.cancel s self = .ok
      (s.store self ⟨c, n, .task { t with state := .TASK_CANCELING }⟩) := by
  simp only [URLSessionTask.cancel, hfs, hst, bind, Except.bind, if_true]
  exact Runtime.setTask_eq _ hself hfs

/-- What `cancel` does to a task that is neither running nor suspended. -/
theorem URLSessionTask.cancel_other {s : Runtime} {self : ident} {t : URLSessionTask}
    (hfs : s.task self = .ok t)
    (hst : ¬ (t.state = .TASK_RUNNING ∨ t.state = .TASK_SUSPENDED)) :
    URLSessionTask.cancel s self = .ok s := by
  simp only [URLSessionTask.cancel, hfs, hst, bind, Except.bind, if_false]
  rfl

/-- C11. For every task, `resume` starts the task's thread and sets `state` to
`TASK_RUNNING` if and only if the state was `TASK_SUSPENDED`.  On a suspended
task whose thread is live it returns with one `start` of that thread recorded
and the state running; in every other state it returns the state it was given,
thread not started, `state` unchanged.  Whenever it returns, every other member
of the task, the task's header, every other block and the allocator are as they
were.  (Starting the thread of a suspended task through a pointer to no live
thread has no result.)  In particular a task that `initWithRequestInSession`
has just initialized is suspended, and is running after its first `resume`,
which starts the thread the initializer allocated. -/
theorem resume_iff_suspended (s : Runtime) (self : ident) (c : Class) (n : Nat)
    (fs : Fields) (t : URLSessionTask)
    (hself : s.heap self = some ⟨c, n, fs⟩) (hfs : s.task self = .ok t) :
    (t.state = .TASK_SUSPENDED → ∀ ith, s.heap t.locals.thread = some ith →
      ∃ s', URLSessionTask.resume s self = .ok s'
        ∧ s'.trace = s.trace ++ [.start t.locals.thread]
        ∧ s'.heap self = some ⟨c, n, .task { t with state := .TASK_RUNNING }⟩)
    ∧ (t.state ≠ .TASK_SUSPENDED → URLSessionTask.resume s self = .ok s)
    ∧ (∀ s', URLSessionTask.resume s self = .ok s' →
        s'.task self = .ok { t with state :=
          if t.state = .TASK_SUSPENDED then .TASK_RUNNING else t.state }
        ∧ s'.trace = s.trace
            ++ (if t.state = .TASK_SUSPENDED then [.start t.locals.thread] else [])
        ∧ (Event.start t.locals.thread ∈ s'.trace.drop s.trace.length
            ↔ t.state = .TASK_SUSPENDED)
        ∧ (∀ t', s'.task self = .ok t' → (t'.state ≠ t.state ↔ t.state = .TASK_SUSPENDED))
        ∧ classof s' self = some c ∧ s'.referenceCount self = some n
        ∧ (∀ a, a ≠ self → s'.heap a = s.heap a)
        ∧ s'.buffers = s.buffers ∧ s'.brk = s.brk ∧ s'.limit = s.limit)
    ∧ (t.state = .TASK_SUSPENDED → s.heap t.locals.thread = none →
        URLSessionTask.resume s self = .error .badAccess)
    ∧ (∀ (objectInit : ObjectInit) (s0 s1 : Runtime) (self0 r request session : ident)
        (completion : Option Fn) (inst irq iss : Instance) (c0 : Class) (n0 : Nat)
        (fs0 : Fields) (t0 : URLSessionTask),
        s0.heap self0 = some inst → _Object ∈ inst.clazz.chain →
        request ≠ NULL → session ≠ NULL →
        objectInit s0 self0 = (r, s1) → r ≠ NULL →
        s1.heap r = some ⟨c0, n0, fs0⟩ → s1.task r = .ok t0 →
        s1.heap request = some irq → s1.heap session = some iss →
        request ≠ r → session ≠ r → session ≠ request →
        s1.brk ≠ r → s1.brk ≠ request → s1.brk ≠ session →
        s1.brk + 1 < s1.limit →
        ∃ s' s'',
          URLSessionTask.initWithRequestInSession objectInit s0 self0 request session
            completion = .ok (r, s')
          ∧ (s'.task r).map (·.state) = .ok .TASK_SUSPENDED
          ∧ URLSessionTask.resume s' r = .ok s''
          ∧ (s''.task r).map (·.state) = .ok .TASK_RUNNING
          ∧ s''.trace = s'.trace ++ [.start s1.brk]) := by
  have hsusp : t.state = .TASK_SUSPENDED → ∀ ith, s.heap t.locals.thread = some ith →
      URLSessionTask.resume s self = .ok ((s.log (.start t.locals.thread)).store self
        ⟨c, n, .task { t with state := .TASK_RUNNING }⟩) :=
    fun hst ith hth => URLSessionTask.resume_suspended hself hfs hst hth
  have hnone : t.state = .TASK_SUSPENDED → s.heap t.locals.thread = none →
      URLSessionTask.resume s self = .error .badAccess := by
    intro hst hth
    simp [URLSessionTask.resume, hfs, hst, Thread.start, hth, bind, Except.bind]
  refine ⟨?_, fun hst => URLSessionTask.resume_other hfs hst, ?_, hnone, ?_⟩
  · intro hst ith hth
    exact ⟨_, hsusp hst ith hth, by simp, by simp⟩
  · intro s' h
    by_cases hst : t.state = .TASK_SUSPENDED
    · cases hth : s.heap t.locals.thread with
      | none => rw [hnone hst hth] at h; cases h
      | some ith =>
        rw [hsusp hst ith hth] at h
        cases h
        refine ⟨by simp [Runtime.task, hst], by simp [hst], by simp [hst], ?_,
          by simp [classof], by simp [Runtime.referenceCount], fun a ha => by simp [ha],
          rfl, rfl, rfl⟩
        intro t' ht'
        simp [Runtime.task] at ht'
        subst ht'
        simp [hst]
    · rw [URLSessionTask.resume_other hfs hst] at h
      cases h
      refine ⟨by simp [hfs, hst], by simp [hst], by simp [hst], ?_,
        by simp [classof, hself], by simp [Runtime.referenceCount, hself], fun a _ => rfl,
        rfl, rfl, rfl⟩
      intro t' ht'
      rw [hfs] at ht'
      cases ht'
      simp [hst]
  · intro objectInit s0 s1 self0 r request session completion inst irq iss c0 n0 fs0 t0
      g1 g2 g3 g4 g5 g6 g7 g8 g9 g10 g11 g12 g13 g14 g15 g16 g17
    obtain ⟨s', hi, h1, -, -, h4, -, -⟩ := URLSessionTask.init_ok objectInit s0 s1 self0 r
      request session completion inst irq iss c0 n0 fs0 t0 g1 g2 g3 g4 g5 g6 g7 g8 g9 g10 g11
      g12 g13 g14 g15 g16 g17
    have ht : s'.task r = .ok (URLSessionTask.initialized t0 s1.brk (s1.brk + 1) request
        session completion) := by simp [Runtime.task, h1]
    have hr := URLSessionTask.resume_suspended h1 ht rfl h4
    exact ⟨s', _, hi, by simp [ht, Except.map, URLSessionTask.initialized], hr,
      by simp [Runtime.task, Except.map], by simp [URLSessionTask.initialized]⟩

/-- C11 on the suspended task of `taskState`, whose thread is at address 4: `resume`
starts that thread and leaves the task running; on the zero-filled task of
`dataTaskState`, which is not suspended, it changes nothing. -/
theorem resume_iff_suspended_witness :
    (∃ s', URLSessionTask.resume taskState 1 = .ok s'
      ∧ s'.trace = [.start 4]
      ∧ (s'.task 1).map (·.state) = .ok .TASK_RUNNING)
    ∧ URLSessionTask.resume dataTaskState 1 = .ok dataTaskState := by
  obtain ⟨s', h1, h2, h3⟩ := (resume_iff_suspended taskState 1 __URLSessionTask 1
    (.task suspendedTask)
    suspendedTask
    rfl rfl).1 rfl ⟨_Thread, 1, .thread (some ⟨"URLSessionTask", "run"⟩) 1⟩ rfl
  refine ⟨⟨s', h1, h2, by simp [Runtime.task, h3, Except.map]⟩, ?_⟩
  exact (resume_iff_suspended dataTaskState 1
    (.subclass "URLSessionDataTask" none __URLSessionTask) 1 .zeroed URLSessionTask.zeroed
    rfl rfl).2.1 (by decide)

/-- C12. For every task, `cancel` returns; it sets `state` to `TASK_CANCELING` if
and only if the state was `TASK_RUNNING` or `TASK_SUSPENDED` (the state changes
exactly in these two cases) and otherwise returns the state it was given.  It
changes no other member of the task, nor the task's header, any other block, the
allocator or the trace.  It is idempotent: `cancel` applied to its own result
changes nothing. -/
theorem cancel_iff_active (s : Runtime) (self : ident) (c : Class) (n : Nat)
    (fs : Fields) (t : URLSessionTask)
    (hself : s.heap self = some ⟨c, n, fs⟩) (hfs : s.task self = .ok t) :
    ∃ s', URLSessionTask.cancel s self = .ok s'
      ∧ s'.task self = .ok { t with state :=
          if t.state = .TASK_RUNNING ∨ t.state = .TASK_SUSPENDED then .TASK_CANCELING
          else t.state }
      ∧ (∀ t', s'.task self = .ok t' →
          (t'.state ≠ t.state ↔ (t.state = .TASK_RUNNING ∨ t.state = .TASK_SUSPENDED)))
      ∧ (¬ (t.state = .TASK_RUNNING ∨ t.state = .TASK_SUSPENDED) → s' = s)
      ∧ classof s' self = some c ∧ s'.referenceCount self = some n
      ∧ (∀ a, a ≠ self → s'.heap a = s.heap a)
      ∧ s'.buffers = s.buffers ∧ s'.brk = s.brk ∧ s'.limit = s.limit ∧ s'.trace = s.trace
      ∧ URLSessionTask.cancel s' self = .ok s' := by
  by_cases hst : t.state = .TASK_RUNNING ∨ t.state = .TASK_SUSPENDED
  · refine ⟨_, URLSessionTask.cancel_active hself hfs hst, by simp [Runtime.task, hst], ?_,
      fun h => absurd hst h, by simp [classof], by simp [Runtime.referenceCount],
      fun a ha => by simp [ha], rfl, rfl, rfl, rfl, ?_⟩
    · intro t' ht'
      simp [Runtime.task] at ht'
      subst ht'
      rcases hst with h | h <;> simp [h]
    · exact URLSessionTask.cancel_other (t := { t with state := .TASK_CANCELING })
        (by simp [Runtime.task]) (by simp)
  · refine ⟨s, URLSessionTask.cancel_other hfs hst, by simp [hfs, hst], ?_, fun _ => rfl,
      by simp [classof, hself], by simp [Runtime.referenceCount, hself], fun a _ => rfl,
      rfl, rfl, rfl, rfl, URLSessionTask.cancel_other hfs hst⟩
    intro t' ht'
    rw [hfs] at ht'
    cases ht'
    simp [hst]

/-- C12 on the suspended task of `taskState`: `cancel` leaves it canceling, and a
second `cancel` changes nothing. -/
theorem cancel_iff_active_witness :
    ∃ s', URLSessionTask.cancel taskState 1 = .ok s'
      ∧ (s'.task 1).map (·.state) = .ok .TASK_CANCELING
      ∧ s'.trace = []
      ∧ URLSessionTask.cancel s' 1 = .ok s' := by
  obtain ⟨s', h1, h2, -, -, -, -, -, -, -, -, h3, h4⟩ := cancel_iff_active taskState 1
    __URLSessionTask 1
    (.task suspendedTask)
    suspendedTask
    rfl rfl
  exact ⟨s', h1, by rw [h2]; rfl, h3, h4⟩

end Objectively
